import Mathlib

/-!
Verification of the XYK constant-product AMM in `iroha/src/dex.rs`.

The embedding models Rust machine integers as `Nat` with explicit reduction
modulo `2^32` (`u32`) and `2^128` (`u128`) at every operation where the Rust
code can overflow; this is the wrapping semantics of release builds.
Integer division by zero, a failed `assert!` and an out-of-bounds `unwrap`
panic in every build, so they are modelled as a distinguished `rtPanic`
outcome.  Fallible Rust functions returning `Result<_, String>` are modelled
with the `Res` type below.
-/

namespace IrohaDex

set_option maxRecDepth 4000

/-- `2^32`, the modulus of `u32` arithmetic. -/
def U32 : Nat := 4294967296

/-- `2^128`, the modulus of `u128` arithmetic. -/
def U128 : Nat := 2 ^ 128

/-- Reduction modulo `2^32`: wrapping `u32` arithmetic. -/
def wrap32 (n : Nat) : Nat := n % U32

/-- Reduction modulo `2^128`: wrapping `u128` arithmetic. -/
def wrap128 (n : Nat) : Nat := n % U128

/-- Wrapping `u128` subtraction (two's-complement wrap-around), for arguments
below `2^128`. -/
def wsub128 (a b : Nat) : Nat := (a + U128 - b) % U128

/-- Wrapping `u32` subtraction (two's-complement wrap-around), for arguments
below `2^32`. -/
def wsub32 (a b : Nat) : Nat := (a + U32 - b) % U32

/-- Outcome of a fallible Rust computation: `Err(String)`, or a runtime panic
(division by zero, failed `assert!`, out-of-bounds `unwrap`). -/
inductive Err where
  | e (msg : String)
  | rtPanic
deriving DecidableEq

/-- Shallow embedding of Rust `Result<A, String>` (plus panics). -/
inductive Res (α : Type) where
  | ok (a : α)
  | error (err : Err)
deriving DecidableEq

instance : Monad Res where
  pure := Res.ok
  bind x f := match x with
    | .ok a => f a
    | .error er => .error er

/-- `const MINIMUM_LIQUIDITY: u32 = 1000` from `dex.rs`. -/
def MINIMUM_LIQUIDITY : Nat := 1000

/-- `const MAX_BASIS_POINTS: u16 = 10000` from `dex.rs`. -/
def MAX_BASIS_POINTS : Nat := 10000

/-- Embedding of `xyk_pool_quote` (`dex.rs`): given an amount of one asset and
the pair reserves, compute the proportional amount of the other asset.  The
product `amount_a * reserve_b` is computed in `u32` in the source, hence the
`wrap32`. -/
def xyk_pool_quote (amount_a reserve_a reserve_b : Nat) : Res Nat :=
  if ¬ amount_a > 0 then .error (.e "insufficient amount")
  else if ¬ (reserve_a > 0 ∧ reserve_b > 0) then .error (.e "insufficient liquidity")
  else .ok (wrap32 (amount_a * reserve_b) / reserve_a)

/-- Embedding of `xyk_pool_get_amount_out` (`dex.rs`): the source computes the
intermediates as `u128`, which is exact for `u32` inputs; the final
`as u32` cast is the `wrap32`. -/
def xyk_pool_get_amount_out (amount_in reserve_in reserve_out : Nat) : Res Nat :=
  if ¬ amount_in > 0 then .error (.e "insufficient input amount")
  else if ¬ (reserve_in > 0 ∧ reserve_out > 0) then .error (.e "insufficient liquidity")
  else
    let amount_in_with_fee := amount_in * 997
    let numerator := amount_in_with_fee * reserve_out
    let denominator := reserve_in * 1000 + amount_in_with_fee
    .ok (wrap32 (numerator / denominator))

/-- Embedding of `xyk_pool_get_amount_in` (`dex.rs`): the subtraction
`reserve_out as u128 - amount_out as u128` wraps when `amount_out >
reserve_out`, and the final `as u32` cast is the `wrap32`. -/
def xyk_pool_get_amount_in (amount_out reserve_in reserve_out : Nat) : Res Nat :=
  if ¬ amount_out > 0 then .error (.e "insufficient output amount")
  else if ¬ (reserve_in > 0 ∧ reserve_out > 0) then .error (.e "insufficient liquidity")
  else if ¬ reserve_out ≠ amount_out then .error (.e "can't withdraw full reserve")
  else
    let numerator := reserve_in * amount_out * 1000
    let denominator := wrap128 (wsub128 reserve_out amount_out * 997)
    .ok (wrap32 (numerator / denominator + 1))

/-- Embedding of `xyk_pool_get_optimal_deposit_amounts` (`dex.rs`).  The
`assert!(amount_a_optimal <= amount_a_desired)` in the source is modelled as
an `rtPanic` outcome when the asserted condition fails. -/
def xyk_pool_get_optimal_deposit_amounts
    (reserve_a reserve_b amount_a_desired amount_b_desired amount_a_min amount_b_min : Nat) :
    Res (Nat × Nat) :=
  if reserve_a = 0 ∧ reserve_b = 0 then .ok (amount_a_desired, amount_b_desired)
  else
    match xyk_pool_quote amount_a_desired reserve_a reserve_b with
    | .error er => .error er
    | .ok amount_b_optimal =>
      if amount_b_optimal ≤ amount_b_desired then
        if ¬ amount_b_optimal ≥ amount_b_min then .error (.e "insufficient b amount")
        else .ok (amount_a_desired, amount_b_optimal)
      else
        match xyk_pool_quote amount_b_desired reserve_b reserve_a with
        | .error er => .error er
        | .ok amount_a_optimal =>
          if ¬ amount_a_optimal ≤ amount_a_desired then .error .rtPanic
          else if ¬ amount_a_optimal ≥ amount_a_min then .error (.e "insufficient a amount")
          else .ok (amount_a_optimal, amount_b_desired)

/-!
## World-state model

Account ids, asset-definition ids and domain contents are modelled over `Nat`
ids in a single-domain world, mirroring the `WorldStateView` structure the DEX
module reads and writes.  Primitives that live in repository modules not under
`src/` (`WorldStateView` accessors, the checked `TransferAsset` account
instruction, `PermissionInstruction::CanManageDEX`) are modelled from the
spec, as noted on each definition.
-/

/-- Association-list lookup: the first binding of the key. -/
def alGet {κ β : Type} [DecidableEq κ] (k : κ) : List (κ × β) → Option β
  | [] => none
  | (k', b) :: t => if k' = k then some b else alGet k t

/-- Association-list update: replace the first binding of the key, or append
a fresh binding. -/
def alSet {κ β : Type} [DecidableEq κ] (k : κ) (b : β) : List (κ × β) → List (κ × β)
  | [] => [(k, b)]
  | (k', b') :: t => if k' = k then (k, b) :: t else (k', b') :: alSet k b t

/-- Association-list removal of the first binding of the key. -/
def alRemove {κ β : Type} [DecidableEq κ] (k : κ) : List (κ × β) → List (κ × β)
  | [] => []
  | (k', b) :: t => if k' = k then t else (k', b) :: alRemove k t

/-- Fuel-driven floor square root (`⌊√n⌋` by the classical base-4 digit
recurrence), the embedding of the `integer_sqrt` crate used by `dex.rs`.  It
computes the exact floor square root whenever `n < 4 ^ fuel` (see
`isqrtFuel_spec`). -/
def isqrtFuel : Nat → Nat → Nat
  | 0, _ => 0
  | fuel + 1, n =>
    if n = 0 then 0
    else
      let r := 2 * isqrtFuel fuel (n / 4)
      if (r + 1) * (r + 1) ≤ n then r + 1 else r

/-- Floor square root of a `u32`-range value (32 fuel steps cover `n < 4^32`,
far beyond the `u32` products it is applied to). -/
def isqrt (n : Nat) : Nat := isqrtFuel 32 n

/-- Embedding of `XYKPoolData` (`dex.rs`). -/
structure XYKPoolData where
  pool_token_asset_definition_id : Nat
  storage_account_id : Nat
  fee_to : Option Nat
  fee : Nat
  protocol_fee_part : Nat
  pool_token_total_supply : Nat
  base_asset_reserve : Nat
  target_asset_reserve : Nat
  k_last : Nat
deriving DecidableEq

/-- Embedding of `XYKPoolData::new` (`dex.rs`). -/
def XYKPoolData.new (pool_token_asset_definition_id storage_account_id : Nat) : XYKPoolData :=
  { pool_token_asset_definition_id := pool_token_asset_definition_id
    storage_account_id := storage_account_id
    fee_to := none
    fee := 30
    protocol_fee_part := 0
    pool_token_total_supply := 0
    base_asset_reserve := 0
    target_asset_reserve := 0
    k_last := 0 }

/-- Embedding of `LiquiditySourceType` (`dex.rs`). -/
inductive LiquiditySourceType where
  | xykPool
  | orderBook
deriving DecidableEq

/-- Embedding of `LiquiditySourceData` (`dex.rs`). -/
inductive LiquiditySourceData where
  | xykPool (data : XYKPoolData)
  | orderBook
deriving DecidableEq

/-- Embedding of `TokenPairId` (`dex.rs`), for the single modelled DEX. -/
structure TokenPairIdm where
  base_asset_id : Nat
  target_asset_id : Nat
deriving DecidableEq

/-- Embedding of `TokenPair` (`dex.rs`): its map of liquidity sources, keyed
by source type (the id's pair component is the enclosing key). -/
structure TokenPairm where
  liquidity_sources : List (LiquiditySourceType × LiquiditySourceData)
deriving DecidableEq

/-- Embedding of `DEX` (`dex.rs`). -/
structure DEXm where
  owner_account_id : Nat
  base_asset_id : Nat
  token_pairs : List (TokenPairIdm × TokenPairm)
deriving DecidableEq

/-- Embedding of `Account`: its asset entries (asset-definition id ↦ quantity).
An absent entry is distinct from an entry of quantity zero, exactly as in the
source's `BTreeMap<AssetId, Asset>`. -/
structure Accountm where
  assets : List (Nat × Nat)
deriving DecidableEq

/-- The modelled `WorldStateView`: registered asset definitions, accounts,
granted `TransferAsset` permissions, holders of the manage-DEX permission, and
the single domain's DEX. -/
structure World where
  asset_definitions : List Nat
  accounts : List (Nat × Accountm)
  transfer_permissions : List (Nat × Nat)
  dex_managers : List Nat
  dex : Option DEXm
deriving DecidableEq

/-- Stateful fallible computation over the world.  The final world is returned
even on error: in the source a failed instruction leaves its partial in-place
mutations in the `WorldStateView` (`ValidTransaction::proceed` merely logs the
error and carries on). -/
def M (α : Type) : Type := World → Res α × World

instance : Monad M where
  pure a := fun w => (.ok a, w)
  bind x f := fun w =>
    match x w with
    | (.ok a, w') => f a w'
    | (.error er, w') => (.error er, w')

/-- Fail with the given error, leaving the world untouched. -/
def mthrow {α : Type} (er : Err) : M α := fun w => (.error er, w)

/-- Lift a pure fallible computation into the stateful monad. -/
def liftRes {α : Type} (r : Res α) : M α := fun w => (r, w)

/-- Embedding of `get_asset_quantity` (`dex.rs`). -/
def get_asset_quantity (account_id asset_definition_id : Nat) : M Nat := fun w =>
  match alGet account_id w.accounts with
  | none => (.error (.e "account not found"), w)
  | some acct =>
    match alGet asset_definition_id acct.assets with
    | none => (.error (.e "asset not found"), w)
    | some q => (.ok q, w)

/-- Embedding of `mint_asset_unchecked` (`dex.rs`).  The underlying
`WorldStateView::asset` / `add_asset` accessors are outside `src/`; they are
modelled from the spec as entry update / entry insertion on the target
account.  The quantity increment is wrapping `u32` addition. -/
def mint_asset_unchecked (asset_definition_id account_id quantity : Nat) : M Unit := fun w =>
  if asset_definition_id ∈ w.asset_definitions then
    match alGet account_id w.accounts with
    | none => (.error (.e "Failed to find asset."), w)
    | some acct =>
      match alGet asset_definition_id acct.assets with
      | some q =>
        (.ok (), { w with accounts := (alSet account_id
          ({ acct with assets := alSet asset_definition_id (wrap32 (q + quantity)) acct.assets })
          w.accounts) })
      | none =>
        (.ok (), { w with accounts := (alSet account_id
          ({ acct with assets := alSet asset_definition_id quantity acct.assets }) w.accounts) })
  else (.error (.e "Failed to find asset."), w)

/-- Embedding of `burn_asset_unchecked` (`dex.rs`). -/
def burn_asset_unchecked (asset_definition_id account_id quantity : Nat) : M Unit := fun w =>
  if asset_definition_id ∈ w.asset_definitions then
    match alGet account_id w.accounts with
    | none => (.error (.e "Account does not contain the asset."), w)
    | some acct =>
      match alGet asset_definition_id acct.assets with
      | none => (.error (.e "Account does not contain the asset."), w)
      | some q =>
        if quantity > q then (.error (.e "Insufficient asset quantity to burn."), w)
        else
          (.ok (), { w with accounts := (alSet account_id
            ({ acct with assets := alSet asset_definition_id (q - quantity) acct.assets })
            w.accounts) })
  else (.error (.e "Failed to find asset definition."), w)

/-- Embedding of `transfer_from_unchecked` (`dex.rs`).  The source debits the
sender before looking up the destination account, so a missing destination
leaves the sender already debited; the destination increment is wrapping `u32`
addition. -/
def transfer_from_unchecked (asset_definition_id from_id to_id value : Nat) : M Unit := fun w =>
  match alGet from_id w.accounts with
  | none => (.error (.e "Failed to find accounts."), w)
  | some src =>
    match alGet asset_definition_id src.assets with
    | none => (.error (.e "Asset's component was not found."), w)
    | some q =>
      if q < value then (.error (.e "Not enough assets."), w)
      else
        let w1 : World := { w with accounts := (alSet from_id
          ({ src with assets := alSet asset_definition_id (q - value) src.assets }) w.accounts) }
        match alGet to_id w1.accounts with
        | none => (.error (.e "Failed to find destination account."), w1)
        | some dst =>
          match alGet asset_definition_id dst.assets with
          | some q' =>
            (.ok (), { w1 with accounts := (alSet to_id
              ({ dst with assets := alSet asset_definition_id (wrap32 (q' + value)) dst.assets })
              w1.accounts) })
          | none =>
            (.ok (), { w1 with accounts := (alSet to_id
              ({ dst with assets := alSet asset_definition_id value dst.assets }) w1.accounts) })

/-- Modelled from the spec: the checked `TransferAsset` account instruction
invoked by `transfer_from` (`dex.rs`) lives in the account module, which is
not under `src/`.  Per the spec it enforces the `TransferAsset` permission on
the authority and then moves the quantity; the move itself is modelled with
the same semantics as `transfer_from_unchecked`. -/
def transfer_from (asset_definition_id from_id to_id value authority : Nat) : M Unit := fun w =>
  if (authority, asset_definition_id) ∈ w.transfer_permissions then
    transfer_from_unchecked asset_definition_id from_id to_id value w
  else (.error (.e "permission denied"), w)

/-- Modelled from the spec: `PermissionInstruction::CanManageDEX` lives in the
permission module, which is not under `src/`; it succeeds iff the authority
holds the manage-DEX permission. -/
def can_manage_dex (authority : Nat) : M Unit := fun w =>
  if authority ∈ w.dex_managers then (.ok (), w) else (.error (.e "permission denied"), w)

/-- Embedding of `get_dex` (`dex.rs`) for the modelled single-domain world. -/
def read_dex : M DEXm := fun w =>
  match w.dex with
  | none => (.error (.e "dex not initialized for domain"), w)
  | some dex => (.ok dex, w)

/-- Embedding of `get_liquidity_source` followed by `expect_xyk_pool_data`
(`dex.rs`): look up the XYK pool data of a token pair. -/
def get_xyk_pool_data (token_pair_id : TokenPairIdm) : M XYKPoolData := fun w =>
  match w.dex with
  | none => (.error (.e "dex not initialized for domain"), w)
  | some dex =>
    match alGet token_pair_id dex.token_pairs with
    | none => (.error (.e "token pair not found"), w)
    | some pair =>
      match alGet LiquiditySourceType.xykPool pair.liquidity_sources with
      | none => (.error (.e "liquidity source not found"), w)
      | some (LiquiditySourceData.xykPool data) => (.ok data, w)
      | some LiquiditySourceData.orderBook => (.error (.e "wrong liquidity source data"), w)

/-- Embedding of `get_liquidity_source_mut` + `expect_xyk_pool_data_mut` +
`mem::replace` (`dex.rs`): the single write-back of pool data into the
registry. -/
def set_xyk_pool_data (token_pair_id : TokenPairIdm) (data : XYKPoolData) : M Unit := fun w =>
  match w.dex with
  | none => (.error (.e "dex not initialized for domain"), w)
  | some dex =>
    match alGet token_pair_id dex.token_pairs with
    | none => (.error (.e "token pair not found"), w)
    | some pair =>
      match alGet LiquiditySourceType.xykPool pair.liquidity_sources with
      | none => (.error (.e "liquidity source not found"), w)
      | some (LiquiditySourceData.xykPool _) =>
        (.ok (), { w with dex := (some ({ dex with token_pairs := (alSet token_pair_id
          ({ pair with liquidity_sources := (alSet LiquiditySourceType.xykPool
            (LiquiditySourceData.xykPool data) pair.liquidity_sources) }) dex.token_pairs) })) })
      | some LiquiditySourceData.orderBook => (.error (.e "wrong liquidity source data"), w)

/-- Embedding of `xyk_pool_update` (`dex.rs`): refresh the cached reserves. -/
def xyk_pool_update (balance_a balance_b : Nat) (data : XYKPoolData) : XYKPoolData :=
  { data with base_asset_reserve := balance_a, target_asset_reserve := balance_b }

/-- Embedding of `xyk_pool_mint_pool_token` (`dex.rs`); the supply increment is
wrapping `u32` addition. -/
def xyk_pool_mint_pool_token (to_id quantity : Nat) (data : XYKPoolData) : M XYKPoolData := do
  mint_asset_unchecked data.pool_token_asset_definition_id to_id quantity
  pure { data with pool_token_total_supply := wrap32 (data.pool_token_total_supply + quantity) }

/-- Embedding of `xyk_pool_mint_pool_token_fee` (`dex.rs`): protocol-fee
accrual.  All arithmetic is `u32` in the source; `integer_sqrt` is `Nat.sqrt`. -/
def xyk_pool_mint_pool_token_fee (data : XYKPoolData) : M XYKPoolData :=
  match data.fee_to with
  | some fee_to =>
    if data.k_last ≠ 0 then
      let root_k := isqrt (wrap32 (data.base_asset_reserve * data.target_asset_reserve))
      let root_k_last := isqrt data.k_last
      if root_k > root_k_last then
        let numerator := wrap32 (data.pool_token_total_supply * (root_k - root_k_last))
        let denominator := wrap32 (5 * root_k + root_k_last)
        if denominator = 0 then mthrow .rtPanic
        else
          let liquidity := numerator / denominator
          if liquidity > 0 then xyk_pool_mint_pool_token fee_to liquidity data
          else pure data
      else pure data
    else pure data
  | none =>
    if data.k_last ≠ 0 then pure { data with k_last := 0 }
    else pure data

/-- Embedding of `xyk_pool_mint_pool_token_with_fee` (`dex.rs`).  The first-mint
product `amount_a * amount_b` and the share computations are `u32`
multiplications; the subtraction of `MINIMUM_LIQUIDITY` is wrapping `u32`
subtraction, and the share divisions panic on a zero reserve. -/
def xyk_pool_mint_pool_token_with_fee
    (to_id : Nat) (token_pair_id : TokenPairIdm) (amount_a amount_b : Nat)
    (data : XYKPoolData) : M XYKPoolData := do
  let balance_a ← get_asset_quantity data.storage_account_id token_pair_id.base_asset_id
  let balance_b ← get_asset_quantity data.storage_account_id token_pair_id.target_asset_id
  let data ← xyk_pool_mint_pool_token_fee data
  let computed ←
    if data.pool_token_total_supply = 0 then
      liftRes (.ok (wsub32 (isqrt (wrap32 (amount_a * amount_b))) MINIMUM_LIQUIDITY,
        { data with pool_token_total_supply := MINIMUM_LIQUIDITY }))
    else
      if data.base_asset_reserve = 0 ∨ data.target_asset_reserve = 0 then mthrow .rtPanic
      else
        liftRes (.ok
          (min (wrap32 (amount_a * data.pool_token_total_supply) / data.base_asset_reserve)
            (wrap32 (amount_b * data.pool_token_total_supply) / data.target_asset_reserve),
          data))
  let liquidity := computed.1
  let data := computed.2
  if ¬ liquidity > 0 then mthrow (.e "insufficient liquidity minted")
  else do
    let data ← xyk_pool_mint_pool_token to_id liquidity data
    let data := xyk_pool_update balance_a balance_b data
    if data.fee_to.isSome then
      pure { data with k_last := wrap32 (data.base_asset_reserve * data.target_asset_reserve) }
    else pure data

/-- Embedding of `xyk_pool_burn_pool_token` (`dex.rs`); the supply decrement is
wrapping `u32` subtraction. -/
def xyk_pool_burn_pool_token (from_id value : Nat) (data : XYKPoolData) : M XYKPoolData := do
  burn_asset_unchecked data.pool_token_asset_definition_id from_id value
  pure { data with pool_token_total_supply := wsub32 data.pool_token_total_supply value }

/-- Embedding of `xyk_pool_burn_pool_token_with_fee` (`dex.rs`).  The share
computations `liquidity * balance / total_supply` are `u32` multiplications
with a division that panics when the total supply is zero (the source keeps
the typo "insufficient liqudity burned"). -/
def xyk_pool_burn_pool_token_with_fee
    (to_id : Nat) (token_pair_id : TokenPairIdm) (liquidity : Nat) (data : XYKPoolData) :
    M ((Nat × Nat) × XYKPoolData) := do
  let balance_a ← get_asset_quantity data.storage_account_id token_pair_id.base_asset_id
  let balance_b ← get_asset_quantity data.storage_account_id token_pair_id.target_asset_id
  let data ← xyk_pool_mint_pool_token_fee data
  if data.pool_token_total_supply = 0 then mthrow .rtPanic
  else
    let amount_a := wrap32 (liquidity * balance_a) / data.pool_token_total_supply
    let amount_b := wrap32 (liquidity * balance_b) / data.pool_token_total_supply
    if ¬ (amount_a > 0 ∧ amount_b > 0) then mthrow (.e "insufficient liqudity burned")
    else do
      let data ← xyk_pool_burn_pool_token data.storage_account_id liquidity data
      transfer_from_unchecked token_pair_id.base_asset_id data.storage_account_id to_id amount_a
      transfer_from_unchecked token_pair_id.target_asset_id data.storage_account_id to_id amount_b
      let balance_a ← get_asset_quantity data.storage_account_id token_pair_id.base_asset_id
      let balance_b ← get_asset_quantity data.storage_account_id token_pair_id.target_asset_id
      let data := xyk_pool_update balance_a balance_b data
      if ¬ (data.base_asset_reserve > 0 ∧ data.target_asset_reserve > 0) then
        mthrow (.e "Insufficient reserves.")
      else
        if data.fee_to.isSome then
          pure ((amount_a, amount_b), { data with k_last :=
            (wrap32 (data.base_asset_reserve * data.target_asset_reserve)) })
        else pure ((amount_a, amount_b), data)

/-- Embedding of `xyk_pool_add_liquidity_execute` (`dex.rs`). -/
def xyk_pool_add_liquidity_execute
    (token_pair_id : TokenPairIdm)
    (amount_a_desired amount_b_desired amount_a_min amount_b_min to_id authority : Nat) :
    M Unit := do
  let data ← get_xyk_pool_data token_pair_id
  let amounts ← liftRes (xyk_pool_get_optimal_deposit_amounts data.base_asset_reserve
    data.target_asset_reserve amount_a_desired amount_b_desired amount_a_min amount_b_min)
  transfer_from token_pair_id.base_asset_id authority data.storage_account_id amounts.1 authority
  transfer_from token_pair_id.target_asset_id authority data.storage_account_id amounts.2 authority
  let data ← xyk_pool_mint_pool_token_with_fee to_id token_pair_id amounts.1 amounts.2 data
  set_xyk_pool_data token_pair_id data

/-- Embedding of `xyk_pool_remove_liquidity_execute` (`dex.rs`). -/
def xyk_pool_remove_liquidity_execute
    (token_pair_id : TokenPairIdm) (liquidity amount_a_min amount_b_min to_id authority : Nat) :
    M Unit := do
  let data ← get_xyk_pool_data token_pair_id
  transfer_from data.pool_token_asset_definition_id authority data.storage_account_id liquidity
    authority
  let res ← xyk_pool_burn_pool_token_with_fee to_id token_pair_id liquidity data
  if ¬ res.1.1 ≥ amount_a_min then mthrow (.e "insufficient a amount")
  else if ¬ res.1.2 ≥ amount_b_min then mthrow (.e "insufficient b amount")
  else set_xyk_pool_data token_pair_id res.2

/-- Embedding of `liquidity_source_id_for_tokens` (`dex.rs`): orient an
unordered pair of asset ids into (base, target) against the DEX base asset. -/
def liquidity_source_id_for_tokens (asset_a_id asset_b_id : Nat) : M TokenPairIdm := fun w =>
  match w.dex with
  | none => (.error (.e "dex not initialized for domain"), w)
  | some dex =>
    if asset_a_id = dex.base_asset_id then
      (.ok ⟨asset_a_id, asset_b_id⟩, w)
    else if asset_b_id = dex.base_asset_id then
      (.ok ⟨asset_b_id, asset_a_id⟩, w)
    else (.error (.e "neither of tokens is base asset"), w)

/-- Embedding of `xyk_pool_swap` (`dex.rs`): withdraw the requested outputs
from the pool's storage account and verify the constant-product invariant on
`u128` adjusted balances. -/
def xyk_pool_swap
    (base_asset_id target_asset_id base_amount_out target_amount_out to_id : Nat) : M Unit := do
  if ¬ (base_amount_out > 0 ∨ target_amount_out > 0) then
    mthrow (.e "insufficient output amount")
  else do
    let token_pair_id ← liquidity_source_id_for_tokens base_asset_id target_asset_id
    let data ← get_xyk_pool_data token_pair_id
    if ¬ (base_amount_out < data.base_asset_reserve ∧
        target_amount_out < data.target_asset_reserve) then
      mthrow (.e "insufficient liquidity")
    else do
      if base_amount_out > 0 then
        transfer_from_unchecked base_asset_id data.storage_account_id to_id base_amount_out
      else pure ()
      if target_amount_out > 0 then
        transfer_from_unchecked target_asset_id data.storage_account_id to_id target_amount_out
      else pure ()
      let base_balance ← get_asset_quantity data.storage_account_id base_asset_id
      let target_balance ← get_asset_quantity data.storage_account_id target_asset_id
      let base_amount_in :=
        if base_balance > data.base_asset_reserve - base_amount_out then
          base_balance - (data.base_asset_reserve - base_amount_out)
        else 0
      let target_amount_in :=
        if target_balance > data.target_asset_reserve - target_amount_out then
          target_balance - (data.target_asset_reserve - target_amount_out)
        else 0
      if ¬ (base_amount_in > 0 ∨ target_amount_in > 0) then
        mthrow (.e "insufficient input amount")
      else
        let base_balance_adjusted := wsub128 (base_balance * 1000) (base_amount_in * 3)
        let target_balance_adjusted := wsub128 (target_balance * 1000) (target_amount_in * 3)
        if ¬ (wrap128 (base_balance_adjusted * target_balance_adjusted) ≥
            wrap128 (data.base_asset_reserve * data.target_asset_reserve * 1000000)) then
          mthrow (.e "k error")
        else
          set_xyk_pool_data token_pair_id (xyk_pool_update base_balance target_balance data)

/-- Embedding of `xyk_pool_get_reserves` (`dex.rs`): reserves of the pool for
an ordered pair of assets, oriented along that order. -/
def xyk_pool_get_reserves (asset_a_id asset_b_id : Nat) : M (Nat × Nat) := do
  let token_pair_id ← liquidity_source_id_for_tokens asset_a_id asset_b_id
  let data ← get_xyk_pool_data token_pair_id
  let dex ← read_dex
  if asset_a_id = dex.base_asset_id then
    pure (data.base_asset_reserve, data.target_asset_reserve)
  else if asset_b_id = dex.base_asset_id then
    pure (data.target_asset_reserve, data.base_asset_reserve)
  else mthrow (.e "neither of tokens is base asset")

/-- Loop of `xyk_pool_get_amounts_out` (`dex.rs`): fold `amount_out` along the
path. -/
def xyk_pool_get_amounts_out_go (amount : Nat) : List Nat → M (List Nat)
  | a :: b :: rest => do
    let r ← xyk_pool_get_reserves a b
    let nxt ← liftRes (xyk_pool_get_amount_out amount r.1 r.2)
    let tl ← xyk_pool_get_amounts_out_go nxt (b :: rest)
    pure (amount :: tl)
  | _ => pure [amount]

/-- Embedding of `xyk_pool_get_amounts_out` (`dex.rs`). -/
def xyk_pool_get_amounts_out (amount_in : Nat) (path : List Nat) : M (List Nat) :=
  if ¬ path.length ≥ 2 then mthrow (.e "invalid path")
  else xyk_pool_get_amounts_out_go amount_in path

/-- Loop of `xyk_pool_get_amounts_in` (`dex.rs`), processing the reversed
path (the source iterates indices right to left and reverses at the end). -/
def xyk_pool_get_amounts_in_go (amount : Nat) : List Nat → M (List Nat)
  | a :: b :: rest => do
    let r ← xyk_pool_get_reserves b a
    let prev ← liftRes (xyk_pool_get_amount_in amount r.1 r.2)
    let tl ← xyk_pool_get_amounts_in_go prev (b :: rest)
    pure (amount :: tl)
  | _ => pure [amount]

/-- Embedding of `xyk_pool_get_amounts_in` (`dex.rs`). -/
def xyk_pool_get_amounts_in (amount_out : Nat) (path : List Nat) : M (List Nat) :=
  if ¬ path.length ≥ 2 then mthrow (.e "invalid path")
  else do
    let rev ← xyk_pool_get_amounts_in_go amount_out path.reverse
    pure rev.reverse

/-- Embedding of `xyk_pool_swap_all` (`dex.rs`): perform one single-pool swap
per hop; `amounts` is consumed in step with the path (`amounts.get(i + 1)` is
an `unwrap`, hence the panic case; an empty path underflows `path.len() - 1`
and then panics on `path.get(0).unwrap()`). -/
def xyk_pool_swap_all (to_id : Nat) : List Nat → List Nat → M Unit
  | input_id :: output_id :: rest, _ :: amount_out :: amounts_rest => do
    let dex ← read_dex
    let oriented ←
      if input_id = dex.base_asset_id then
        liftRes (.ok ((0, amount_out), (input_id, output_id)))
      else if output_id = dex.base_asset_id then
        liftRes (.ok ((amount_out, 0), (output_id, input_id)))
      else mthrow (.e "neither of tokens is base asset")
    let next_account ←
      match rest with
      | next_hop :: _ => do
        let pid ← liquidity_source_id_for_tokens output_id next_hop
        let d ← get_xyk_pool_data pid
        pure d.storage_account_id
      | [] => pure to_id
    xyk_pool_swap oriented.2.1 oriented.2.2 oriented.1.1 oriented.1.2 next_account
    xyk_pool_swap_all to_id (output_id :: rest) (amount_out :: amounts_rest)
  | _ :: _ :: _, _ => mthrow .rtPanic
  | [], _ => mthrow .rtPanic
  | [_], _ => pure ()

/-- Embedding of `xyk_pool_swap_tokens_execute` (`dex.rs`). -/
def xyk_pool_swap_tokens_execute (path amounts : List Nat) (to_id authority : Nat) : M Unit :=
  match path, amounts with
  | p0 :: p1 :: _, a0 :: _ => do
    let first_pool_id ← liquidity_source_id_for_tokens p0 p1
    let first_pool_data ← get_xyk_pool_data first_pool_id
    transfer_from p0 authority first_pool_data.storage_account_id a0 authority
    xyk_pool_swap_all to_id path amounts
  | _, _ => mthrow .rtPanic

/-- Embedding of `xyk_pool_swap_exact_tokens_for_tokens_execute` (`dex.rs`). -/
def xyk_pool_swap_exact_tokens_for_tokens_execute
    (path : List Nat) (amount_in amount_out_min to_id authority : Nat) : M Unit := do
  let amounts ← xyk_pool_get_amounts_out amount_in path
  match amounts.getLast? with
  | none => mthrow .rtPanic
  | some last =>
    if ¬ last ≥ amount_out_min then mthrow (.e "insufficient output amount")
    else xyk_pool_swap_tokens_execute path amounts to_id authority

/-- Embedding of `xyk_pool_swap_tokens_for_exact_tokens_execute` (`dex.rs`). -/
def xyk_pool_swap_tokens_for_exact_tokens_execute
    (path : List Nat) (amount_out amount_in_max to_id authority : Nat) : M Unit := do
  let amounts ← xyk_pool_get_amounts_in amount_out path
  match amounts.head? with
  | none => mthrow .rtPanic
  | some first =>
    if ¬ first ≤ amount_in_max then mthrow (.e "excessive input amount")
    else xyk_pool_swap_tokens_execute path amounts to_id authority

/-- Embedding of `xyk_pool_set_fee_execute` (`dex.rs`). -/
def xyk_pool_set_fee_execute (token_pair_id : TokenPairIdm) (fee authority : Nat) : M Unit := do
  can_manage_dex authority
  let data ← get_xyk_pool_data token_pair_id
  if fee > MAX_BASIS_POINTS then mthrow (.e "fee could not be greater than 100 percent")
  else set_xyk_pool_data token_pair_id { data with fee := fee }

/-- Embedding of `xyk_pool_set_protocol_fee_part_execute` (`dex.rs`). -/
def xyk_pool_set_protocol_fee_part_execute (token_pair_id : TokenPairIdm)
    (protocol_fee_part authority : Nat) : M Unit := do
  can_manage_dex authority
  let data ← get_xyk_pool_data token_pair_id
  if protocol_fee_part > MAX_BASIS_POINTS then
    mthrow (.e "protocol fee fraction could not be greater than 100 percent")
  else set_xyk_pool_data token_pair_id { data with protocol_fee_part := protocol_fee_part }

/-- Embedding of `GetOwnedLiquidityOnXYKPoolInfo::execute` (`dex.rs`): the
share computations divide by `pool_token_total_supply` unconditionally, a
division that panics when the total supply is zero. -/
def get_owned_liquidity_info (token_pair_id : TokenPairIdm) (account_id : Nat) :
    M (Nat × Nat × Nat) := do
  let data ← get_xyk_pool_data token_pair_id
  let base_asset_balance ← get_asset_quantity data.storage_account_id
    token_pair_id.base_asset_id
  let target_asset_balance ← get_asset_quantity data.storage_account_id
    token_pair_id.target_asset_id
  let pool_token_quantity ← get_asset_quantity account_id data.pool_token_asset_definition_id
  if data.pool_token_total_supply = 0 then mthrow .rtPanic
  else
    liftRes (.ok
      (wrap32 (pool_token_quantity * base_asset_balance) / data.pool_token_total_supply,
        wrap32 (pool_token_quantity * target_asset_balance) / data.pool_token_total_supply,
        pool_token_quantity))

/-- Embedding of `Register<Domain, DEX>::execute` (`dex.rs`): initialize the
DEX of the domain. -/
def initialize_dex_execute (dex : DEXm) (authority : Nat) : M Unit := do
  can_manage_dex authority
  (fun w =>
    match alGet dex.owner_account_id w.accounts with
    | none => (.error (.e "account not found"), w)
    | some _ =>
      match w.dex with
      | none => (.ok (), { w with dex := some dex })
      | some _ => (.error (.e "dex is already initialized for domain"), w))

/-- Embedding of `Add<DEX, TokenPair>::execute` (`dex.rs`): create a token
pair (asset-definition existence is checked against the modelled registry). -/
def create_token_pair_execute (base_asset_id target_asset_id authority : Nat) : M Unit := do
  can_manage_dex authority
  let dex ← read_dex
  (fun w =>
    if ¬ base_asset_id ∈ w.asset_definitions then
      (.error (.e "base asset definition not found"), w)
    else if ¬ base_asset_id = dex.base_asset_id then
      (.error (.e "base asset definition is incorrect"), w)
    else if ¬ target_asset_id ∈ w.asset_definitions then
      (.error (.e "target asset definition not found"), w)
    else if base_asset_id = target_asset_id then
      (.error (.e "assets in token pair must be different"), w)
    else
      match w.dex with
      | none => (.error (.e "dex not initialized for domain"), w)
      | some dex' =>
        let pid : TokenPairIdm := ⟨base_asset_id, target_asset_id⟩
        match alGet pid dex'.token_pairs with
        | some _ => (.error (.e "token pair already exists"), w)
        | none => (.ok (), { w with dex := (some ({ dex' with token_pairs :=
            (alSet pid ⟨[]⟩ dex'.token_pairs) })) }))

/-- Embedding of `Remove<DEX, TokenPairId>::execute` (`dex.rs`). -/
def remove_token_pair_execute (base_asset_id target_asset_id authority : Nat) : M Unit := do
  can_manage_dex authority
  (fun w =>
    match w.dex with
    | none => (.error (.e "dex not initialized for domain"), w)
    | some dex =>
      let pid : TokenPairIdm := ⟨base_asset_id, target_asset_id⟩
      match alGet pid dex.token_pairs with
      | none => (.error (.e "token pair does not exist"), w)
      | some _ => (.ok (), { w with dex := (some ({ dex with token_pairs :=
          (alRemove pid dex.token_pairs) })) }))

/-- Embedding of `Add<TokenPair, LiquiditySource>::execute` (`dex.rs`): note
the instruction payload's `LiquiditySource` (and its `XYKPoolData`) is
inserted exactly as given, without any validation of its fields. -/
def create_liquidity_source_execute (token_pair_id : TokenPairIdm)
    (source_type : LiquiditySourceType) (data : LiquiditySourceData) (authority : Nat) :
    M Unit := do
  can_manage_dex authority
  (fun w =>
    match w.dex with
    | none => (.error (.e "dex not initialized for domain"), w)
    | some dex =>
      match alGet token_pair_id dex.token_pairs with
      | none => (.error (.e "token pair not found"), w)
      | some pair =>
        match alGet source_type pair.liquidity_sources with
        | some _ => (.error (.e "liquidity source already exists for token pair"), w)
        | none => (.ok (), { w with dex := (some ({ dex with token_pairs := (alSet token_pair_id
            ({ pair with liquidity_sources := (alSet source_type data pair.liquidity_sources) })
            dex.token_pairs) })) }))

/-- Embedding of `add_transfer_permission_for_account_execute` (`dex.rs`)
(the permission-asset plumbing reduces to adding a pair to the modelled
permission set). -/
def add_transfer_permission_execute (asset_definition_id account_id : Nat) : M Unit := fun w =>
  match alGet account_id w.accounts with
  | none => (.error (.e "failed to find account"), w)
  | some _ =>
    (.ok (), { w with transfer_permissions :=
      if (account_id, asset_definition_id) ∈ w.transfer_permissions then
        w.transfer_permissions
      else (account_id, asset_definition_id) :: w.transfer_permissions })

/-- The modelled instruction surface: every `DEXInstruction` variant
(`dex.rs`), together with the spec-modelled ledger transfer instruction. -/
inductive Instr where
  | initializeDEX (dex : DEXm)
  | createTokenPair (base_asset_id target_asset_id : Nat)
  | removeTokenPair (base_asset_id target_asset_id : Nat)
  | createLiquiditySource (token_pair_id : TokenPairIdm)
      (source_type : LiquiditySourceType) (data : LiquiditySourceData)
  | addLiquidity (token_pair_id : TokenPairIdm) (aD bD aMin bMin : Nat)
  | removeLiquidity (token_pair_id : TokenPairIdm) (liquidity aMin bMin : Nat)
  | swapExactTokensForTokens (path : List Nat) (amount_in amount_out_min : Nat)
  | swapTokensForExactTokens (path : List Nat) (amount_out amount_in_max : Nat)
  | setFee (token_pair_id : TokenPairIdm) (value : Nat)
  | setProtocolFeePart (token_pair_id : TokenPairIdm) (value : Nat)
  | addTransferPermission (asset_definition_id account_id : Nat)
  | transferAsset (asset_definition_id from_id to_id value : Nat)

/-- Embedding of `DEXInstruction::execute` (`dex.rs`): dispatch on the
instruction variant (the authority is both the depositor/recipient and the
permission subject, as in the source dispatcher). -/
def exec (i : Instr) (authority : Nat) : M Unit :=
  match i with
  | .initializeDEX dex => initialize_dex_execute dex authority
  | .createTokenPair b t => create_token_pair_execute b t authority
  | .removeTokenPair b t => remove_token_pair_execute b t authority
  | .createLiquiditySource pid ty d => create_liquidity_source_execute pid ty d authority
  | .addLiquidity pid aD bD aMin bMin =>
      xyk_pool_add_liquidity_execute pid aD bD aMin bMin authority authority
  | .removeLiquidity pid l aMin bMin =>
      xyk_pool_remove_liquidity_execute pid l aMin bMin authority authority
  | .swapExactTokensForTokens path aIn aOutMin =>
      xyk_pool_swap_exact_tokens_for_tokens_execute path aIn aOutMin authority authority
  | .swapTokensForExactTokens path aOut aInMax =>
      xyk_pool_swap_tokens_for_exact_tokens_execute path aOut aInMax authority authority
  | .setFee pid v => xyk_pool_set_fee_execute pid v authority
  | .setProtocolFeePart pid v => xyk_pool_set_protocol_fee_part_execute pid v authority
  | .addTransferPermission ad acct => add_transfer_permission_execute ad acct
  | .transferAsset ad f t v => transfer_from ad f t v authority

/-- World after executing one instruction under `ValidTransaction::proceed`
semantics: the (possibly partially mutated) world is kept even when the
instruction fails. -/
def execW (i : Instr) (authority : Nat) (w : World) : World := (exec i authority w).2

/-- Basis-point bounds on one liquidity source's pool data. -/
def srcBounded : LiquiditySourceData → Prop
  | .xykPool d => d.fee ≤ MAX_BASIS_POINTS ∧ d.protocol_fee_part ≤ MAX_BASIS_POINTS
  | .orderBook => True

instance (d : LiquiditySourceData) : Decidable (srcBounded d) :=
  match d with
  | .xykPool _ => inferInstanceAs (Decidable (_ ∧ _))
  | .orderBook => inferInstanceAs (Decidable True)

/-- Basis-point bounds on every pool of a DEX. -/
def dexBounded (dex : DEXm) : Prop :=
  ∀ pr ∈ dex.token_pairs, ∀ s ∈ pr.2.liquidity_sources, srcBounded s.2

instance (dex : DEXm) : Decidable (dexBounded dex) :=
  inferInstanceAs (Decidable (∀ pr ∈ dex.token_pairs, ∀ s ∈ pr.2.liquidity_sources, srcBounded s.2))

/-- Invariant I5: every XYK pool of the world has `fee ≤ 10000` and
`protocol_fee_part ≤ 10000`. -/
def World.poolsBounded (w : World) : Prop :=
  ∀ dex, w.dex = some dex → dexBounded dex

instance (w : World) : Decidable w.poolsBounded :=
  match hw : w.dex with
  | none => .isTrue (by intro dex h; rw [hw] at h; cases h)
  | some dex =>
    decidable_of_iff (dexBounded dex)
      (by
        constructor
        · intro hd dx h
          rw [hw] at h
          cases h
          exact hd
        · intro h
          exact h dex hw)

/-- Well-formed instruction payloads: creation payloads carry basis-point
fields within bounds.  `XYKPoolData::new` (used by the `create_xyk_pool`
constructor) always satisfies this. -/
def InstrOk : Instr → Prop
  | .createLiquiditySource _ _ d => srcBounded d
  | .initializeDEX dex => dexBounded dex
  | _ => True

/-- Reachability by instructions whose creation payloads are well-formed. -/
inductive ReachableOk : World → World → Prop
  | refl (w : World) : ReachableOk w w
  | step {w₀ w : World} (i : Instr) (authority : Nat) (hi : InstrOk i)
      (h : ReachableOk w₀ w) : ReachableOk w₀ (execW i authority w)

/-- Unrestricted reachability: any instruction payload, any authority. -/
inductive Reachable : World → World → Prop
  | refl (w : World) : Reachable w w
  | step {w₀ w : World} (i : Instr) (authority : Nat)
      (h : Reachable w₀ w) : Reachable w₀ (execW i authority w)

/-!
## Projections and example worlds used in the statements
-/

/-- The fee fields of one liquidity source (`none` for an order book). -/
def srcFees : LiquiditySourceData → Option (Nat × Nat)
  | .xykPool d => some (d.fee, d.protocol_fee_part)
  | .orderBook => none

/-- The fee fields of every source of a token pair. -/
def pairFees (p : TokenPairm) : List (LiquiditySourceType × Option (Nat × Nat)) :=
  p.liquidity_sources.map (fun s => (s.1, srcFees s.2))

/-- The fee fields of every pool of a DEX. -/
def dexFees (dex : DEXm) : List (TokenPairIdm × List (LiquiditySourceType × Option (Nat × Nat))) :=
  dex.token_pairs.map (fun pr => (pr.1, pairFees pr.2))

/-- The fee fields of every pool of the world. -/
def World.feeView (w : World) :
    Option (List (TokenPairIdm × List (LiquiditySourceType × Option (Nat × Nat)))) :=
  w.dex.map dexFees

/-- A computation that never changes the DEX registry (pools included). -/
def preservesDex {α : Type} (m : M α) : Prop := ∀ w, ((m w).2).dex = w.dex

/-- A computation that never changes any pool's fee fields (it may touch
reserves, supplies and accounts). -/
def preservesFees {α : Type} (m : M α) : Prop := ∀ w, ((m w).2).feeView = w.feeView

/-- A computation that leaves the DEX registry (pools included) untouched
whenever it returns an error. -/
def dexUnchangedOnErr {α : Type} (m : M α) : Prop :=
  ∀ w er, (m w).1 = .error er → ((m w).2).dex = w.dex

/-- Equality of the two fee fields of pool data. -/
def feeFieldsEq (d d' : XYKPoolData) : Prop :=
  d'.fee = d.fee ∧ d'.protocol_fee_part = d.protocol_fee_part

/-- A computation that never changes the world (a pure query). -/
def readOnly {α : Type} (m : M α) : Prop := ∀ w, (m w).2 = w

/-- A computation that preserves the basis-point bounds invariant on every
pool of the world. -/
def keepsBounded {α : Type} (m : M α) : Prop :=
  ∀ w, w.poolsBounded → ((m w).2).poolsBounded

/-- Every successful return value of the computation satisfies the
postcondition. -/
def retSat {α : Type} (m : M α) (P : α → Prop) : Prop :=
  ∀ w a, (m w).1 = .ok a → P a

/-- A canonical one-pool world for concrete statements: base asset `0`, target
asset `1`, pool token `2`, storage account `20`, a user account `11` holding
five units of the base asset, manager `10`; the pool reserves and the storage
balances are parameters. -/
def swapPool (rA rB : Nat) : XYKPoolData :=
  { pool_token_asset_definition_id := 2
    storage_account_id := 20
    fee_to := none
    fee := 30
    protocol_fee_part := 0
    pool_token_total_supply := 1916
    base_asset_reserve := rA
    target_asset_reserve := rB
    k_last := 0 }

/-- See `swapPool`. -/
def swapWorld (rA rB ba0 bb0 : Nat) : World :=
  { asset_definitions := [0, 1, 2]
    accounts := [(20, ⟨[(0, ba0), (1, bb0)]⟩), (11, ⟨[(0, 5)]⟩)]
    transfer_permissions := [(11, 0), (11, 1), (11, 2)]
    dex_managers := [10]
    dex := some
      { owner_account_id := 10
        base_asset_id := 0
        token_pairs := [(⟨0, 1⟩, ⟨[(LiquiditySourceType.xykPool,
          LiquiditySourceData.xykPool (swapPool rA rB))]⟩)] } }

/-- A world with a registered token pair but no pool yet: base asset `0`,
target asset `1`, user account `11` holding both assets, manager `10`. -/
def pairOnlyWorld : World :=
  { asset_definitions := [0, 1, 2]
    accounts := [(20, ⟨[]⟩), (11, ⟨[(0, 5), (1, 7)]⟩)]
    transfer_permissions := []
    dex_managers := [10]
    dex := some
      { owner_account_id := 10
        base_asset_id := 0
        token_pairs := [(⟨0, 1⟩, ⟨[]⟩)] } }

/-- An out-of-bounds pool payload (`fee = 10001 > MAX_BASIS_POINTS`) for the
raw `CreateLiquiditySource` instruction. -/
def badPoolData : XYKPoolData :=
  { XYKPoolData.new 2 20 with fee := 10001 }

/-- A fresh pool payload whose pool-token asset-definition id is the base
asset `0` and whose storage account is the user account `11`: every field a
fresh `XYKPoolData` would have, but aliasing existing ledger objects. -/
def poisonedPoolData : XYKPoolData := XYKPoolData.new 0 11

/-!
## Helper lemmas
-/

theorem M_bind_eq {α β : Type} (x : M α) (f : α → M β) (w : World) :
    (x >>= f) w = match x w with
      | (.ok a, w') => f a w'
      | (.error er, w') => (.error er, w') := rfl

theorem M_pure_eq {α : Type} (a : α) (w : World) : (pure a : M α) w = (.ok a, w) := rfl

theorem wrap32_eq_of_lt {n : Nat} (h : n < U32) : wrap32 n = n := Nat.mod_eq_of_lt h

theorem wrap32_le (n : Nat) : wrap32 n ≤ n := Nat.mod_le _ _

theorem wrap128_eq_of_lt {n : Nat} (h : n < U128) : wrap128 n = n := Nat.mod_eq_of_lt h

theorem U32_lt_U128 : U32 < U128 := by norm_num [U32, U128]

theorem U32_mul_997_lt_U128 : U32 * 997 < U128 := by norm_num [U32, U128]

theorem wsub128_eq_of_le {a b : Nat} (hle : b ≤ a) (h : a < U128) : wsub128 a b = a - b := by
  unfold wsub128
  have h1 : a + U128 - b = U128 + (a - b) := by omega
  rw [h1, Nat.add_mod_left]
  exact Nat.mod_eq_of_lt (by omega)

theorem wsub32_eq_of_le {a b : Nat} (hle : b ≤ a) (h : a < U32) : wsub32 a b = a - b := by
  unfold wsub32
  have h1 : a + U32 - b = U32 + (a - b) := by omega
  rw [h1, Nat.add_mod_left]
  exact Nat.mod_eq_of_lt (by omega)

/-- Exactness of `xyk_pool_get_amount_out` on its happy path: the `u128`
intermediates are exact and the final quotient is below `reserve_out`, so the
`as u32` cast is the identity. -/
theorem amount_out_exact (aIn rIn rOut : Nat)
    (ha : aIn > 0) (hr : rIn > 0) (ho : rOut > 0) (how : rOut < U32) :
    xyk_pool_get_amount_out aIn rIn rOut
      = .ok (aIn * 997 * rOut / (rIn * 1000 + aIn * 997)) := by
  have hd : 0 < rIn * 1000 + aIn * 997 := by positivity
  have hq : aIn * 997 * rOut / (rIn * 1000 + aIn * 997) < rOut := by
    rw [Nat.div_lt_iff_lt_mul hd]
    nlinarith
  have hcond : ¬ ¬ (rIn > 0 ∧ rOut > 0) := not_not_intro (And.intro hr ho)
  simp only [xyk_pool_get_amount_out, if_neg (not_not_intro ha), if_neg hcond]
  rw [wrap32_eq_of_lt (lt_trans hq how)]

/-- Success elimination for `xyk_pool_quote`. -/
theorem quote_ok_elim {a rA rB v : Nat} (h : xyk_pool_quote a rA rB = .ok v) :
    a > 0 ∧ rA > 0 ∧ rB > 0 ∧ v = wrap32 (a * rB) / rA := by
  unfold xyk_pool_quote at h
  split at h
  · exact absurd h (by simp)
  · split at h
    · exact absurd h (by simp)
    · rename_i h1 h2
      rw [not_not] at h1 h2
      rw [Res.ok.injEq] at h
      exact ⟨h1, h2.1, h2.2, h.symm⟩

/-- The second `quote` of `xyk_pool_get_optimal_deposit_amounts` never exceeds
the desired base amount, so the source's `assert!` cannot fire. -/
theorem optimal_second_quote_le {rA rB aD bD bOpt aOpt : Nat}
    (hb : xyk_pool_quote aD rA rB = .ok bOpt) (hgt : bD < bOpt)
    (ha : xyk_pool_quote bD rB rA = .ok aOpt) : aOpt ≤ aD := by
  obtain ⟨haD, hrA, hrB, hbv⟩ := quote_ok_elim hb
  obtain ⟨hbD, _, _, hav⟩ := quote_ok_elim ha
  rw [hbv] at hgt
  have h1 : (bD + 1) * rA ≤ wrap32 (aD * rB) := (Nat.le_div_iff_mul_le hrA).mp hgt
  have h2 : bD * rA < aD * rB := by
    have hw := wrap32_le (aD * rB)
    nlinarith
  have h4 : wrap32 (bD * rA) / rB < aD := by
    apply Nat.div_lt_of_lt_mul
    calc wrap32 (bD * rA) ≤ bD * rA := wrap32_le _
      _ < aD * rB := h2
      _ = rB * aD := Nat.mul_comm _ _
  omega

/-- Unfolding of the optimal-deposit selection once the first `quote` has
succeeded. -/
theorem optimal_eq_of_quote (rA rB aD bD aMin bMin bOpt : Nat)
    (hne : ¬(rA = 0 ∧ rB = 0)) (hq : xyk_pool_quote aD rA rB = .ok bOpt) :
    xyk_pool_get_optimal_deposit_amounts rA rB aD bD aMin bMin =
      (if bOpt ≤ bD then
        if ¬ bOpt ≥ bMin then .error (.e "insufficient b amount") else .ok (aD, bOpt)
      else match xyk_pool_quote bD rB rA with
        | .error er => .error er
        | .ok aOpt =>
          if ¬ aOpt ≤ aD then .error .rtPanic
          else if ¬ aOpt ≥ aMin then .error (.e "insufficient a amount")
          else .ok (aOpt, bD)) := by
  simp only [xyk_pool_get_optimal_deposit_amounts, if_neg hne, hq]

/-!
## Math-kernel claims
-/

/-- C2: for u32 inputs, `xyk_pool_get_amount_out` returns exactly
`⌊(amount_in·997·reserve_out) / (reserve_in·1000 + amount_in·997)⌋` with all
intermediates computed exactly (128-bit in the source); it returns the
"insufficient input amount" error when `amount_in = 0` and, for a positive
input, the "insufficient liquidity" error when a reserve is zero. -/
theorem xyk_pool_get_amount_out_spec (aIn rIn rOut : Nat)
    (haw : aIn < U32) (hrw : rIn < U32) (how : rOut < U32) :
    (aIn > 0 → rIn > 0 → rOut > 0 →
      xyk_pool_get_amount_out aIn rIn rOut
        = .ok (aIn * 997 * rOut / (rIn * 1000 + aIn * 997)))
    ∧ (aIn = 0 →
      xyk_pool_get_amount_out aIn rIn rOut = .error (.e "insufficient input amount"))
    ∧ (aIn > 0 → (rIn = 0 ∨ rOut = 0) →
      xyk_pool_get_amount_out aIn rIn rOut = .error (.e "insufficient liquidity")) := by
  refine ⟨fun ha hr ho => amount_out_exact aIn rIn rOut ha hr ho how, ?_, ?_⟩
  · intro h
    simp [xyk_pool_get_amount_out, h]
  · intro ha hro
    have h2 : ¬ (rIn > 0 ∧ rOut > 0) := by omega
    simp only [xyk_pool_get_amount_out, if_neg (not_not_intro ha), if_pos h2]

/-- C2 witness: the spec's scenario-4 value, `amount_out(2000, 5000, 7000) =
1995`. -/
theorem xyk_pool_get_amount_out_spec_witness :
    xyk_pool_get_amount_out 2000 5000 7000 = .ok 1995 := by
  have h := (xyk_pool_get_amount_out_spec 2000 5000 7000 (by decide) (by decide)
    (by decide)).1 (by decide) (by decide) (by decide)
  rw [h]

/-- C3 counterexample: at `amount_out = 1`, `reserve_in = 4294967295`,
`reserve_out = 2` the exact value `⌊rIn·aOut·1000/((rOut−aOut)·997)⌋ + 1 =
4307890968` exceeds `u32`, and the function's final `as u32` cast truncates it
to `12923672`, so the function does not return the claimed exact value. -/
theorem xyk_pool_get_amount_in_cast_counterexample :
    xyk_pool_get_amount_in 1 4294967295 2 = .ok 12923672 ∧
    4294967295 * 1 * 1000 / ((2 - 1) * 997) + 1 = 4307890968 ∧
    (12923672 : Nat) ≠ 4307890968 :=
  ⟨by decide, by decide, by decide⟩

/-- C3 (amended): for u32 inputs with `0 < amount_out < reserve_out` and a
positive input reserve, `xyk_pool_get_amount_in` returns
`(⌊reserve_in·amount_out·1000 / ((reserve_out − amount_out)·997)⌋ + 1)`
reduced modulo `2^32` by the final `as u32` cast (the claimed exact value when
it fits in u32); and for positive `amount_out` and positive reserves it fails
with the "can't withdraw full reserve" error exactly when
`amount_out = reserve_out`. -/
theorem xyk_pool_get_amount_in_spec (aOut rIn rOut : Nat)
    (h1 : aOut < U32) (h2 : rIn < U32) (h3 : rOut < U32) :
    (aOut > 0 → rIn > 0 → aOut < rOut →
      xyk_pool_get_amount_in aOut rIn rOut
        = .ok (wrap32 (rIn * aOut * 1000 / ((rOut - aOut) * 997) + 1)))
    ∧ (aOut > 0 → rIn > 0 → rOut > 0 →
      (xyk_pool_get_amount_in aOut rIn rOut = .error (.e "can't withdraw full reserve")
        ↔ aOut = rOut)) := by
  constructor
  · intro ha hr hlt
    have hne : rOut ≠ aOut := by omega
    have hcond : ¬ ¬ (rIn > 0 ∧ rOut > 0) := not_not_intro (And.intro hr (by omega))
    have hbound : (rOut - aOut) * 997 < U128 := by
      calc (rOut - aOut) * 997 ≤ rOut * 997 := Nat.mul_le_mul_right _ (Nat.sub_le _ _)
        _ < U32 * 997 := (Nat.mul_lt_mul_right (by norm_num)).mpr h3
        _ < U128 := U32_mul_997_lt_U128
    simp only [xyk_pool_get_amount_in, if_neg (not_not_intro ha), if_neg hcond,
      if_neg (not_not_intro hne)]
    rw [wsub128_eq_of_le (le_of_lt hlt) (lt_trans h3 U32_lt_U128),
      wrap128_eq_of_lt hbound]
  · intro ha hr ho
    have hcond : ¬ ¬ (rIn > 0 ∧ rOut > 0) := not_not_intro (And.intro hr ho)
    constructor
    · intro h
      by_contra hne
      have hne' : rOut ≠ aOut := fun hh => hne hh.symm
      simp only [xyk_pool_get_amount_in, if_neg (not_not_intro ha),
        if_neg hcond, if_neg (not_not_intro hne')] at h
      exact absurd h (by simp)
    · intro h
      have hne' : ¬ rOut ≠ aOut := by omega
      simp only [xyk_pool_get_amount_in, if_neg (not_not_intro ha),
        if_neg hcond, if_pos hne']

/-- C3 witness: `amount_in(1, 1, 2) = ⌊1000/997⌋ + 1 = 2`, and
`amount_in(2, 1, 2)` hits the full-reserve guard. -/
theorem xyk_pool_get_amount_in_spec_witness :
    xyk_pool_get_amount_in 1 1 2 = .ok (wrap32 (1 * 1 * 1000 / ((2 - 1) * 997) + 1)) ∧
    (xyk_pool_get_amount_in 2 1 2 = .error (.e "can't withdraw full reserve") ↔ (2 : Nat) = 2) :=
  ⟨(xyk_pool_get_amount_in_spec 1 1 2 (by decide) (by decide) (by decide)).1
      (by decide) (by decide) (by decide),
    (xyk_pool_get_amount_in_spec 2 1 2 (by decide) (by decide) (by decide)).2
      (by decide) (by decide) (by decide)⟩

/-- C5 counterexample: `xyk_pool_quote` computes `amount_a * reserve_b` in
`u32`: at `quote(65536, 1, 65536)` the product `2^32` wraps to `0` and the
function returns `Ok 0`, not the exact `⌊65536·65536/1⌋ = 4294967296`. -/
theorem xyk_pool_quote_overflow_counterexample :
    xyk_pool_quote 65536 1 65536 = .ok 0 ∧
    65536 * 65536 / 1 = 4294967296 ∧
    (0 : Nat) ≠ 4294967296 :=
  ⟨by decide, by decide, by decide⟩

/-- C5 (amended): `xyk_pool_quote` computes its product in `u32`, wrapping
modulo `2^32` — it returns `⌊(a·rB mod 2^32)/rA⌋`, which is the exact
`⌊a·rB/rA⌋` only when `a·rB < 2^32`; `xyk_pool_get_amount_out` (and
`xyk_pool_get_amount_in`) do compute their intermediates in 128-bit width, so
`amount_out` is exact for u32 inputs. -/
theorem xyk_pool_quote_spec (a rA rB : Nat) :
    (a > 0 → rA > 0 → rB > 0 → xyk_pool_quote a rA rB = .ok (a * rB % U32 / rA))
    ∧ (a > 0 → rA > 0 → rB > 0 → a * rB < U32 → xyk_pool_quote a rA rB = .ok (a * rB / rA))
    ∧ (∀ aIn rIn rOut : Nat, aIn > 0 → rIn > 0 → rOut > 0 → rOut < U32 →
      xyk_pool_get_amount_out aIn rIn rOut
        = .ok (aIn * 997 * rOut / (rIn * 1000 + aIn * 997))) := by
    refine ⟨?_, ?_, fun aIn rIn rOut ha hr ho how => amount_out_exact aIn rIn rOut ha hr ho how⟩
    · intro ha hrA hrB
      have hcond : ¬ ¬ (rA > 0 ∧ rB > 0) := not_not_intro (And.intro hrA hrB)
      simp only [xyk_pool_quote, if_neg (not_not_intro ha), if_neg hcond]
      rfl
    · intro ha hrA hrB hlt
      have hcond : ¬ ¬ (rA > 0 ∧ rB > 0) := not_not_intro (And.intro hrA hrB)
      simp only [xyk_pool_quote, if_neg (not_not_intro ha), if_neg hcond]
      rw [wrap32_eq_of_lt hlt]

/-- C5 witness: `quote(2, 4, 6) = ⌊12/4⌋ = 3`, both through the wrapped and
the exact characterisation. -/
theorem xyk_pool_quote_spec_witness :
    xyk_pool_quote 2 4 6 = .ok (2 * 6 / 4) :=
  (xyk_pool_quote_spec 2 4 6).2.1 (by decide) (by decide) (by decide) (by decide)

/-- C6: the optimal-deposit selection behaves exactly as specified: empty
reserves pass the desired amounts through; otherwise with
`bOpt = quote(aD, rA, rB)`, if `bOpt ≤ bD` it returns `(aD, bOpt)` when
`bOpt ≥ bMin` and fails with "insufficient b amount" otherwise; else with
`aOpt = quote(bD, rB, rA)` the bound `aOpt ≤ aD` always holds (the `assert!`
cannot fire — the function is total at that check, stated both as the bound
and as the absence of the panic outcome), and it returns `(aOpt, bD)` when
`aOpt ≥ aMin` and fails with "insufficient a amount" otherwise. -/
theorem xyk_pool_get_optimal_deposit_amounts_spec (rA rB aD bD aMin bMin : Nat) :
    (rA = 0 ∧ rB = 0 →
      xyk_pool_get_optimal_deposit_amounts rA rB aD bD aMin bMin = .ok (aD, bD))
    ∧ (∀ bOpt, ¬(rA = 0 ∧ rB = 0) → xyk_pool_quote aD rA rB = .ok bOpt → bOpt ≤ bD →
      (bMin ≤ bOpt →
        xyk_pool_get_optimal_deposit_amounts rA rB aD bD aMin bMin = .ok (aD, bOpt))
      ∧ (bOpt < bMin →
        xyk_pool_get_optimal_deposit_amounts rA rB aD bD aMin bMin
          = .error (.e "insufficient b amount")))
    ∧ (∀ bOpt aOpt, ¬(rA = 0 ∧ rB = 0) → xyk_pool_quote aD rA rB = .ok bOpt → bD < bOpt →
      xyk_pool_quote bD rB rA = .ok aOpt →
      aOpt ≤ aD
      ∧ (aMin ≤ aOpt →
        xyk_pool_get_optimal_deposit_amounts rA rB aD bD aMin bMin = .ok (aOpt, bD))
      ∧ (aOpt < aMin →
        xyk_pool_get_optimal_deposit_amounts rA rB aD bD aMin bMin
          = .error (.e "insufficient a amount")))
    ∧ xyk_pool_get_optimal_deposit_amounts rA rB aD bD aMin bMin ≠ .error .rtPanic := by
  refine ⟨?_, ?_, ?_, ?_⟩
  · intro h
    simp only [xyk_pool_get_optimal_deposit_amounts, if_pos h]
  · intro bOpt hne hq hle
    rw [optimal_eq_of_quote rA rB aD bD aMin bMin bOpt hne hq]
    constructor
    · intro hmin
      rw [if_pos hle, if_neg (not_not_intro hmin)]
    · intro hmin
      rw [if_pos hle, if_pos (by omega)]
  · intro bOpt aOpt hne hq hgt ha
    have hle := optimal_second_quote_le hq hgt ha
    refine ⟨hle, ?_, ?_⟩
    · intro hmin
      rw [optimal_eq_of_quote rA rB aD bD aMin bMin bOpt hne hq, if_neg (by omega), ha]
      dsimp only
      rw [if_neg (not_not_intro hle), if_neg (not_not_intro hmin)]
    · intro hmin
      rw [optimal_eq_of_quote rA rB aD bD aMin bMin bOpt hne hq, if_neg (by omega), ha]
      dsimp only
      rw [if_neg (not_not_intro hle), if_pos (by omega)]
  · intro hcontra
    by_cases hz : rA = 0 ∧ rB = 0
    · simp only [xyk_pool_get_optimal_deposit_amounts, if_pos hz] at hcontra
      exact absurd hcontra (by simp)
    · cases hqr : xyk_pool_quote aD rA rB with
      | error er =>
        simp only [xyk_pool_get_optimal_deposit_amounts, if_neg hz, hqr] at hcontra
        rw [Res.error.injEq] at hcontra
        unfold xyk_pool_quote at hqr
        split at hqr
        · rw [Res.error.injEq] at hqr
          rw [← hqr] at hcontra
          exact absurd hcontra (by simp)
        · split at hqr
          · rw [Res.error.injEq] at hqr
            rw [← hqr] at hcontra
            exact absurd hcontra (by simp)
          · exact absurd hqr (by simp)
      | ok bOpt =>
        rw [optimal_eq_of_quote rA rB aD bD aMin bMin bOpt hz hqr] at hcontra
        by_cases hle : bOpt ≤ bD
        · rw [if_pos hle] at hcontra
          by_cases hmin : bOpt ≥ bMin
          · rw [if_neg (not_not_intro hmin)] at hcontra
            exact absurd hcontra (by simp)
          · rw [if_pos hmin] at hcontra
            exact absurd hcontra (by simp)
        · rw [if_neg hle] at hcontra
          cases hqr2 : xyk_pool_quote bD rB rA with
          | error er2 =>
            rw [hqr2] at hcontra
            unfold xyk_pool_quote at hqr2
            split at hqr2
            · rw [Res.error.injEq] at hqr2
              rw [Res.error.injEq] at hcontra
              rw [← hqr2] at hcontra
              exact absurd hcontra (by simp)
            · split at hqr2
              · rw [Res.error.injEq] at hqr2
                rw [Res.error.injEq] at hcontra
                rw [← hqr2] at hcontra
                exact absurd hcontra (by simp)
              · exact absurd hqr2 (by simp)
          | ok aOpt =>
            rw [hqr2] at hcontra
            have hle2 := optimal_second_quote_le hqr (by omega) hqr2
            dsimp only at hcontra
            rw [if_neg (not_not_intro hle2)] at hcontra
            by_cases hmin : aOpt ≥ aMin
            · rw [if_neg (not_not_intro hmin)] at hcontra
              exact absurd hcontra (by simp)
            · rw [if_pos hmin] at hcontra
              exact absurd hcontra (by simp)

/-- C6 witness: on empty reserves the desired amounts pass through, and the
panic outcome is excluded. -/
theorem xyk_pool_get_optimal_deposit_amounts_spec_witness :
    xyk_pool_get_optimal_deposit_amounts 0 0 7 9 1 1 = .ok (7, 9) :=
  (xyk_pool_get_optimal_deposit_amounts_spec 0 0 7 9 1 1).1 (by decide)

/-!
## First mint (C4)
-/

/-- `isqrtFuel fuel` is the exact floor square root below `4 ^ fuel`. -/
theorem isqrtFuel_spec : ∀ fuel n, n < 4 ^ fuel →
    isqrtFuel fuel n * isqrtFuel fuel n ≤ n ∧
      n < (isqrtFuel fuel n + 1) * (isqrtFuel fuel n + 1)
  | 0, n, h => by
    simp only [pow_zero] at h
    interval_cases n
    simp [isqrtFuel]
  | fuel + 1, n, h => by
    by_cases hn : n = 0
    · subst hn
      simp [isqrtFuel]
    · have hdiv : n / 4 < 4 ^ fuel := by
        rw [Nat.div_lt_iff_lt_mul (by norm_num)]
        calc n < 4 ^ (fuel + 1) := h
          _ = 4 ^ fuel * 4 := pow_succ 4 fuel
      obtain ⟨ih1, ih2⟩ := isqrtFuel_spec fuel (n / 4) hdiv
      have hdm := Nat.div_add_mod n 4
      have hm : n % 4 < 4 := Nat.mod_lt _ (by norm_num)
      simp only [isqrtFuel, if_neg hn]
      by_cases hc : (2 * isqrtFuel fuel (n / 4) + 1) * (2 * isqrtFuel fuel (n / 4) + 1) ≤ n
      · rw [if_pos hc]
        refine ⟨hc, ?_⟩
        have hx : (2 * isqrtFuel fuel (n / 4) + 1 + 1) * (2 * isqrtFuel fuel (n / 4) + 1 + 1)
            = 4 * ((isqrtFuel fuel (n / 4) + 1) * (isqrtFuel fuel (n / 4) + 1)) := by ring
        omega
      · rw [if_neg hc]
        refine ⟨?_, by omega⟩
        have hx : 2 * isqrtFuel fuel (n / 4) * (2 * isqrtFuel fuel (n / 4))
            = 4 * (isqrtFuel fuel (n / 4) * isqrtFuel fuel (n / 4)) := by ring
        omega

/-- `isqrt` brackets its argument for every `u32`-range value. -/
theorem isqrt_spec (n : Nat) (h : n < U32) :
    isqrt n * isqrt n ≤ n ∧ n < (isqrt n + 1) * (isqrt n + 1) :=
  isqrtFuel_spec 32 n (by
    have h2 : U32 ≤ 4 ^ 32 := by norm_num [U32]
    omega)

theorem isqrt_le (n : Nat) (h : n < U32) : isqrt n ≤ n := by
  obtain ⟨h1, _⟩ := isqrt_spec n h
  nlinarith

/-- C4 counterexample: with first-mint deposits `a = 1000001`, `b = 1` the
product exceeds `MINIMUM_LIQUIDITY² = 1000²`, yet `⌊√1000001⌋ = 1000` gives
zero liquidity and the operation fails with "insufficient liquidity minted"
instead of minting. -/
theorem first_mint_boundary_counterexample :
    1000001 * 1 > 1000 * 1000 ∧
    (xyk_pool_mint_pool_token_with_fee 11 ⟨0, 1⟩ 1000001 1 (XYKPoolData.new 2 20)
      (swapWorld 0 0 1000001 1)).1 = .error (.e "insufficient liquidity minted") :=
  ⟨by decide, by decide⟩

/-- C4 (amended): on a pool with `pool_token_total_supply = 0` (a fresh
`XYKPoolData::new`), with deposited amounts `(a, b)` and storage balances
`(sBase, sTarget)`: writing `s = ⌊√(a·b mod 2^32)⌋` (the product is a `u32`
multiplication), the mint step fails with "insufficient liquidity minted",
without touching the world, exactly when `s = 1000`; when `s > 1000` it mints
`L = s − 1000` pool tokens to the recipient and leaves
`pool_token_total_supply = 1000 + L`; and when `s < 1000` the `u32`
subtraction `s − 1000` wraps, so instead of failing it mints the huge
`s + 2^32 − 1000` and leaves `pool_token_total_supply = s`. -/
theorem first_mint_spec (a b sBase sTarget : Nat) :
    (isqrt (wrap32 (a * b)) = 1000 →
      xyk_pool_mint_pool_token_with_fee 11 ⟨0, 1⟩ a b (XYKPoolData.new 2 20)
          (swapWorld 0 0 sBase sTarget)
        = (.error (.e "insufficient liquidity minted"), swapWorld 0 0 sBase sTarget))
    ∧ (1000 < isqrt (wrap32 (a * b)) →
      (xyk_pool_mint_pool_token_with_fee 11 ⟨0, 1⟩ a b (XYKPoolData.new 2 20)
          (swapWorld 0 0 sBase sTarget)).1
        = .ok
          { pool_token_asset_definition_id := 2, storage_account_id := 20,
            fee_to := none, fee := 30, protocol_fee_part := 0,
            pool_token_total_supply := 1000 + (isqrt (wrap32 (a * b)) - 1000),
            base_asset_reserve := sBase, target_asset_reserve := sTarget, k_last := 0 }
      ∧ (get_asset_quantity 11 2
          (xyk_pool_mint_pool_token_with_fee 11 ⟨0, 1⟩ a b (XYKPoolData.new 2 20)
            (swapWorld 0 0 sBase sTarget)).2).1
        = .ok (isqrt (wrap32 (a * b)) - 1000))
    ∧ (isqrt (wrap32 (a * b)) < 1000 →
      (xyk_pool_mint_pool_token_with_fee 11 ⟨0, 1⟩ a b (XYKPoolData.new 2 20)
          (swapWorld 0 0 sBase sTarget)).1
        = .ok
          { pool_token_asset_definition_id := 2, storage_account_id := 20,
            fee_to := none, fee := 30, protocol_fee_part := 0,
            pool_token_total_supply := isqrt (wrap32 (a * b)),
            base_asset_reserve := sBase, target_asset_reserve := sTarget, k_last := 0 }
      ∧ (get_asset_quantity 11 2
          (xyk_pool_mint_pool_token_with_fee 11 ⟨0, 1⟩ a b (XYKPoolData.new 2 20)
            (swapWorld 0 0 sBase sTarget)).2).1
        = .ok (isqrt (wrap32 (a * b)) + (U32 - 1000))) := by
  have hwlt : wrap32 (a * b) < U32 := Nat.mod_lt _ (by norm_num [U32])
  have hslt : isqrt (wrap32 (a * b)) < U32 := lt_of_le_of_lt (isqrt_le _ hwlt) hwlt
  refine ⟨?_, ?_, ?_⟩
  · intro hs
    have hz : wsub32 1000 1000 = 0 := by decide
    simp [xyk_pool_mint_pool_token_with_fee, xyk_pool_mint_pool_token_fee,
      xyk_pool_mint_pool_token, xyk_pool_update, mint_asset_unchecked, get_asset_quantity,
      liftRes, mthrow, M_bind_eq, M_pure_eq, swapWorld, swapPool, XYKPoolData.new,
      MINIMUM_LIQUIDITY, alGet, alSet, hs, hz]
  · intro hs
    have hwsub : wsub32 (isqrt (wrap32 (a * b))) 1000 = isqrt (wrap32 (a * b)) - 1000 :=
      wsub32_eq_of_le (by omega) hslt
    have hne : isqrt (wrap32 (a * b)) - 1000 ≠ 0 := by omega
    have htot : wrap32 (1000 + (isqrt (wrap32 (a * b)) - 1000))
        = 1000 + (isqrt (wrap32 (a * b)) - 1000) := wrap32_eq_of_lt (by omega)
    have hrun : xyk_pool_mint_pool_token_with_fee 11 ⟨0, 1⟩ a b (XYKPoolData.new 2 20)
        (swapWorld 0 0 sBase sTarget)
        = (.ok
            { pool_token_asset_definition_id := 2, storage_account_id := 20,
              fee_to := none, fee := 30, protocol_fee_part := 0,
              pool_token_total_supply := 1000 + (isqrt (wrap32 (a * b)) - 1000),
              base_asset_reserve := sBase, target_asset_reserve := sTarget, k_last := 0 },
          { swapWorld 0 0 sBase sTarget with
            accounts := [(20, ⟨[(0, sBase), (1, sTarget)]⟩),
              (11, ⟨[(0, 5), (2, isqrt (wrap32 (a * b)) - 1000)]⟩)] }) := by
      simp [xyk_pool_mint_pool_token_with_fee, xyk_pool_mint_pool_token_fee,
        xyk_pool_mint_pool_token, xyk_pool_update, mint_asset_unchecked,
        get_asset_quantity, liftRes, mthrow, M_bind_eq, M_pure_eq, swapWorld, swapPool,
        XYKPoolData.new, MINIMUM_LIQUIDITY, alGet, alSet, hwsub, hne, htot]
    constructor
    · rw [hrun]
    · rw [hrun]
      simp [get_asset_quantity, alGet]
  · intro hs
    have hU : U32 - 1000 = 4294966296 := by norm_num [U32]
    have hwsub : wsub32 (isqrt (wrap32 (a * b))) 1000
        = isqrt (wrap32 (a * b)) + (U32 - 1000) := by
      unfold wsub32
      rw [hU]
      have hlt : isqrt (wrap32 (a * b)) < 4294967296 := by norm_num [U32] at hslt; omega
      have harg : isqrt (wrap32 (a * b)) + U32 - 1000
          = isqrt (wrap32 (a * b)) + 4294966296 := by
        norm_num [U32]
        omega
      rw [harg]
      exact Nat.mod_eq_of_lt (by norm_num [U32]; omega)
    have hne : isqrt (wrap32 (a * b)) + (U32 - 1000) ≠ 0 := by
      rw [hU]
      omega
    have htot : wrap32 (1000 + (isqrt (wrap32 (a * b)) + (U32 - 1000)))
        = isqrt (wrap32 (a * b)) := by
      have hsum : 1000 + (isqrt (wrap32 (a * b)) + (U32 - 1000))
          = U32 + isqrt (wrap32 (a * b)) := by
        have h1 : 1000 ≤ U32 := by norm_num [U32]
        omega
      rw [wrap32, hsum, Nat.add_mod_left]
      exact Nat.mod_eq_of_lt hslt
    have hrun : xyk_pool_mint_pool_token_with_fee 11 ⟨0, 1⟩ a b (XYKPoolData.new 2 20)
        (swapWorld 0 0 sBase sTarget)
        = (.ok
            { pool_token_asset_definition_id := 2, storage_account_id := 20,
              fee_to := none, fee := 30, protocol_fee_part := 0,
              pool_token_total_supply := isqrt (wrap32 (a * b)),
              base_asset_reserve := sBase, target_asset_reserve := sTarget, k_last := 0 },
          { swapWorld 0 0 sBase sTarget with
            accounts := [(20, ⟨[(0, sBase), (1, sTarget)]⟩),
              (11, ⟨[(0, 5), (2, isqrt (wrap32 (a * b)) + (U32 - 1000))]⟩)] }) := by
      simp [xyk_pool_mint_pool_token_with_fee, xyk_pool_mint_pool_token_fee,
        xyk_pool_mint_pool_token, xyk_pool_update, mint_asset_unchecked,
        get_asset_quantity, liftRes, mthrow, M_bind_eq, M_pure_eq, swapWorld, swapPool,
        XYKPoolData.new, MINIMUM_LIQUIDITY, alGet, alSet, hwsub, hne, htot]
    constructor
    · rw [hrun]
    · rw [hrun]
      simp [get_asset_quantity, alGet]

/-- C4 witness: the spec's scenario-2 first mint: deposits `(5000, 7000)` give
`⌊√35000000⌋ = 5916`, the pool mints `4916` tokens and the supply becomes
`5916 = 1000 + 4916`. -/
theorem first_mint_spec_witness :
    (xyk_pool_mint_pool_token_with_fee 11 ⟨0, 1⟩ 5000 7000 (XYKPoolData.new 2 20)
      (swapWorld 0 0 5000 7000)).1
      = .ok
        { pool_token_asset_definition_id := 2, storage_account_id := 20,
          fee_to := none, fee := 30, protocol_fee_part := 0,
          pool_token_total_supply := 5916, base_asset_reserve := 5000,
          target_asset_reserve := 7000, k_last := 0 } := by
  have h := ((first_mint_spec 5000 7000 5000 7000).2.1 (by decide)).1
  rw [h]
  decide

/-!
## Single-pool swap (C1)
-/

theorem wrap128_mul_eq {x y : Nat} (hx : x ≤ U32 * 1000) (hy : y ≤ U32 * 1000) :
    wrap128 (x * y) = x * y := by
  apply wrap128_eq_of_lt
  calc x * y ≤ U32 * 1000 * (U32 * 1000) := Nat.mul_le_mul hx hy
    _ < U128 := by norm_num [U32, U128]

theorem wrap128_k_eq {rA rB : Nat} (ha : rA < U32) (hb : rB < U32) :
    wrap128 (rA * rB * 1000000) = rA * rB * 1000000 := by
  apply wrap128_eq_of_lt
  calc rA * rB * 1000000 ≤ U32 * U32 * 1000000 :=
        Nat.mul_le_mul_right _ (Nat.mul_le_mul (le_of_lt ha) (le_of_lt hb))
    _ < U128 := by norm_num [U32, U128]

theorem adj_sub_eq {bal inp : Nat} (hle : inp ≤ bal) (hb : bal < U32) :
    wsub128 (bal * 1000) (inp * 3) = bal * 1000 - inp * 3 := by
  apply wsub128_eq_of_le
  · calc inp * 3 ≤ bal * 3 := Nat.mul_le_mul_right _ hle
      _ ≤ bal * 1000 := Nat.mul_le_mul_left _ (by norm_num)
  · calc bal * 1000 < U32 * 1000 := (Nat.mul_lt_mul_right (by norm_num)).mpr hb
      _ < U128 := by norm_num [U32, U128]

theorem adj_le_bound {x inp : Nat} (hb : x < U32) : x * 1000 - inp * 3 ≤ U32 * 1000 := by
  calc x * 1000 - inp * 3 ≤ x * 1000 := Nat.sub_le _ _
    _ ≤ U32 * 1000 := Nat.mul_le_mul_right _ (le_of_lt hb)

/-- C1 counterexample: pool reserves `(1000, 1000)`, storage balances
`(1000, 1429)` (a user pre-deposited 429 target tokens), requesting 300 base
out.  The realized base input is 0, so the claim's adjusted balances are
`Ba' = 700·1000 − 0·3 = 700000` and `Bb' = 1429·1000 − 0·3 = 1429000`, whose
product is not below `1000·1000·1000²`: the claim predicts success, but the
code fails with "k error", because it actually subtracts the *target* input
`429·3` from the target balance. -/
theorem xyk_pool_swap_counterexample :
    (xyk_pool_swap 0 1 300 0 11 (swapWorld 1000 1000 1000 1429)).1
      = .error (.e "k error") ∧
    ¬ ((1000 - 300) * 1000 - 0 * 3) * (1429 * 1000 - 0 * 3) < 1000 * 1000 * 1000000 :=
  ⟨by decide, by decide⟩

/-- C1 (amended): for a single-pool swap that reaches the constant-product
verification (at least one requested output positive, outputs strictly below
the cached reserves, storage balances covering the outputs, at least one
realized input positive): writing `Ba = ba0 − baseOut`, `Bb = bb0 − targetOut`
for the post-transfer balances and `aInBase = ba0 − rA`, `aInTarget = bb0 − rB`
for the realized inputs (zero when the difference underflows), the engine
computes `Ba' = Ba·1000 − aInBase·3` and `Bb' = Bb·1000 − aInTarget·3` — each
side subtracting three thousandths of **its own** realized input — and fails
with "k error" exactly when `Ba'·Bb' < rA·rB·1000²`; otherwise the swap
succeeds and updates the cached reserves to `(Ba, Bb)`. -/
theorem xyk_pool_swap_spec (rA rB ba0 bb0 baseOut targetOut : Nat)
    (hout : baseOut > 0 ∨ targetOut > 0)
    (hltA : baseOut < rA) (hltB : targetOut < rB)
    (hbal : baseOut ≤ ba0) (htbal : targetOut ≤ bb0)
    (hreal : rA < ba0 ∨ rB < bb0)
    (hUa : ba0 < U32) (hUb : bb0 < U32) (hUrA : rA < U32) (hUrB : rB < U32) :
    ((xyk_pool_swap 0 1 baseOut targetOut 11 (swapWorld rA rB ba0 bb0)).1
        = .error (.e "k error")
      ↔ ((ba0 - baseOut) * 1000 - (ba0 - rA) * 3)
          * ((bb0 - targetOut) * 1000 - (bb0 - rB) * 3) < rA * rB * 1000000)
    ∧ (rA * rB * 1000000
          ≤ ((ba0 - baseOut) * 1000 - (ba0 - rA) * 3)
            * ((bb0 - targetOut) * 1000 - (bb0 - rB) * 3) →
      (xyk_pool_swap 0 1 baseOut targetOut 11 (swapWorld rA rB ba0 bb0)).1 = .ok ()
      ∧ (get_xyk_pool_data ⟨0, 1⟩
          (xyk_pool_swap 0 1 baseOut targetOut 11 (swapWorld rA rB ba0 bb0)).2).1
        = .ok
          { swapPool rA rB with
            base_asset_reserve := ba0 - baseOut,
            target_asset_reserve := bb0 - targetOut }) := by
  have hgpos : ba0 - rA > 0 ∨ bb0 - rB > 0 := by omega
  have hnb : ¬ ba0 < baseOut := by omega
  have hnt : ¬ bb0 < targetOut := by omega
  rcases Nat.eq_zero_or_pos baseOut with hb0 | hb0
  · rcases Nat.eq_zero_or_pos targetOut with ht0 | ht0
    · omega
    · -- baseOut = 0, targetOut > 0
      rw [show ba0 - baseOut = ba0 from by omega]
      have hbneg : ¬ baseOut > 0 := by omega
      have hres1 : ¬ rA ≤ baseOut := by omega
      have hres2 : ¬ rB ≤ targetOut := by omega
      have hin3B : (if rA - baseOut < ba0 then (ba0 - (rA - baseOut)) * 3 else 0)
          = (ba0 - rA) * 3 := by
        split <;> omega
      have hin3T : (if rB - targetOut < (bb0 - targetOut) then ((bb0 - targetOut) - (rB - targetOut)) * 3 else 0)
          = (bb0 - rB) * 3 := by
        split <;> omega
      have hguardf : ((rA - baseOut < ba0 → ba0 - (rA - baseOut) = 0)
          ∧ (rB - targetOut < (bb0 - targetOut) → (bb0 - targetOut) - (rB - targetOut) = 0)) = False :=
        eq_false (by omega)
      have hsubB : wsub128 (ba0 * 1000) ((ba0 - rA) * 3)
          = ba0 * 1000 - (ba0 - rA) * 3 :=
        adj_sub_eq (by omega) (by omega)
      have hsubT : wsub128 ((bb0 - targetOut) * 1000) ((bb0 - rB) * 3)
          = (bb0 - targetOut) * 1000 - (bb0 - rB) * 3 :=
        adj_sub_eq (by omega) (by omega)
      have hwrapL : wrap128 ((ba0 * 1000 - (ba0 - rA) * 3)
          * ((bb0 - targetOut) * 1000 - (bb0 - rB) * 3))
          = (ba0 * 1000 - (ba0 - rA) * 3) * ((bb0 - targetOut) * 1000 - (bb0 - rB) * 3) :=
        wrap128_mul_eq (adj_le_bound (by omega)) (adj_le_bound (by omega))
      have hwrapR := wrap128_k_eq hUrA hUrB
      by_cases hk : (ba0 * 1000 - (ba0 - rA) * 3)
          * ((bb0 - targetOut) * 1000 - (bb0 - rB) * 3) < rA * rB * 1000000
      · have hrun : (xyk_pool_swap 0 1 baseOut targetOut 11 (swapWorld rA rB ba0 bb0)).1
            = .error (.e "k error") := by
          simp [xyk_pool_swap, liquidity_source_id_for_tokens, get_xyk_pool_data,
            set_xyk_pool_data, xyk_pool_update, transfer_from_unchecked, get_asset_quantity,
            mthrow, liftRes, M_bind_eq, M_pure_eq, swapWorld, swapPool, alGet, alSet,
            hout, hltA, hltB, hbneg, ht0, hnt, hres1, hres2, hin3B, hin3T, hguardf,
            hsubB, hsubT, hwrapL, hwrapR, hk]
        refine ⟨by rw [hrun]; simp [hk], fun hge => by omega⟩
      · have hrun : xyk_pool_swap 0 1 baseOut targetOut 11 (swapWorld rA rB ba0 bb0)
            = (.ok (),
              { swapWorld rA rB ba0 bb0 with
                accounts := [(20, ⟨[(0, ba0), (1, bb0 - targetOut)]⟩), (11, ⟨[(0, 5), (1, targetOut)]⟩)],
                dex := (some
                  { owner_account_id := 10, base_asset_id := 0,
                    token_pairs := [(⟨0, 1⟩, ⟨[(LiquiditySourceType.xykPool,
                      LiquiditySourceData.xykPool
                        ({ swapPool rA rB with
                          base_asset_reserve := ba0,
                          target_asset_reserve := bb0 - targetOut }))]⟩)] }) }) := by
          simp [xyk_pool_swap, liquidity_source_id_for_tokens, get_xyk_pool_data,
            set_xyk_pool_data, xyk_pool_update, transfer_from_unchecked, get_asset_quantity,
            mthrow, liftRes, M_bind_eq, M_pure_eq, swapWorld, swapPool, alGet, alSet,
            hout, hltA, hltB, hbneg, ht0, hnt, hres1, hres2, hin3B, hin3T, hguardf,
            hsubB, hsubT, hwrapL, hwrapR, hk]
        refine ⟨⟨fun h => absurd (hrun ▸ h) (by simp), fun h => absurd h (by omega)⟩, ?_⟩
        intro _
        constructor
        · rw [hrun]
        · rw [hrun]
          simp [get_xyk_pool_data, alGet, swapPool]
  · rcases Nat.eq_zero_or_pos targetOut with ht0 | ht0
    · -- baseOut > 0, targetOut = 0
      rw [show bb0 - targetOut = bb0 from by omega]
      have htneg : ¬ targetOut > 0 := by omega
      have hres1 : ¬ rA ≤ baseOut := by omega
      have hres2 : ¬ rB ≤ targetOut := by omega
      have hin3B : (if rA - baseOut < (ba0 - baseOut) then ((ba0 - baseOut) - (rA - baseOut)) * 3 else 0)
          = (ba0 - rA) * 3 := by
        split <;> omega
      have hin3T : (if rB - targetOut < bb0 then (bb0 - (rB - targetOut)) * 3 else 0)
          = (bb0 - rB) * 3 := by
        split <;> omega
      have hguardf : ((rA - baseOut < (ba0 - baseOut) → (ba0 - baseOut) - (rA - baseOut) = 0)
          ∧ (rB - targetOut < bb0 → bb0 - (rB - targetOut) = 0)) = False :=
        eq_false (by omega)
      have hsubB : wsub128 ((ba0 - baseOut) * 1000) ((ba0 - rA) * 3)
          = (ba0 - baseOut) * 1000 - (ba0 - rA) * 3 :=
        adj_sub_eq (by omega) (by omega)
      have hsubT : wsub128 (bb0 * 1000) ((bb0 - rB) * 3)
          = bb0 * 1000 - (bb0 - rB) * 3 :=
        adj_sub_eq (by omega) (by omega)
      have hwrapL : wrap128 (((ba0 - baseOut) * 1000 - (ba0 - rA) * 3)
          * (bb0 * 1000 - (bb0 - rB) * 3))
          = ((ba0 - baseOut) * 1000 - (ba0 - rA) * 3) * (bb0 * 1000 - (bb0 - rB) * 3) :=
        wrap128_mul_eq (adj_le_bound (by omega)) (adj_le_bound (by omega))
      have hwrapR := wrap128_k_eq hUrA hUrB
      by_cases hk : ((ba0 - baseOut) * 1000 - (ba0 - rA) * 3)
          * (bb0 * 1000 - (bb0 - rB) * 3) < rA * rB * 1000000
      · have hrun : (xyk_pool_swap 0 1 baseOut targetOut 11 (swapWorld rA rB ba0 bb0)).1
            = .error (.e "k error") := by
          simp [xyk_pool_swap, liquidity_source_id_for_tokens, get_xyk_pool_data,
            set_xyk_pool_data, xyk_pool_update, transfer_from_unchecked, get_asset_quantity,
            mthrow, liftRes, M_bind_eq, M_pure_eq, swapWorld, swapPool, alGet, alSet,
            hout, hltA, hltB, hb0, htneg, hnb, hres1, hres2, hin3B, hin3T, hguardf,
            hsubB, hsubT, hwrapL, hwrapR, hk]
        refine ⟨by rw [hrun]; simp [hk], fun hge => by omega⟩
      · have hrun : xyk_pool_swap 0 1 baseOut targetOut 11 (swapWorld rA rB ba0 bb0)
            = (.ok (),
              { swapWorld rA rB ba0 bb0 with
                accounts := [(20, ⟨[(0, ba0 - baseOut), (1, bb0)]⟩), (11, ⟨[(0, wrap32 (5 + baseOut))]⟩)],
                dex := (some
                  { owner_account_id := 10, base_asset_id := 0,
                    token_pairs := [(⟨0, 1⟩, ⟨[(LiquiditySourceType.xykPool,
                      LiquiditySourceData.xykPool
                        ({ swapPool rA rB with
                          base_asset_reserve := ba0 - baseOut,
                          target_asset_reserve := bb0 }))]⟩)] }) }) := by
          simp [xyk_pool_swap, liquidity_source_id_for_tokens, get_xyk_pool_data,
            set_xyk_pool_data, xyk_pool_update, transfer_from_unchecked, get_asset_quantity,
            mthrow, liftRes, M_bind_eq, M_pure_eq, swapWorld, swapPool, alGet, alSet,
            hout, hltA, hltB, hb0, htneg, hnb, hres1, hres2, hin3B, hin3T, hguardf,
            hsubB, hsubT, hwrapL, hwrapR, hk]
        refine ⟨⟨fun h => absurd (hrun ▸ h) (by simp), fun h => absurd h (by omega)⟩, ?_⟩
        intro _
        constructor
        · rw [hrun]
        · rw [hrun]
          simp [get_xyk_pool_data, alGet, swapPool]
    · -- both positive
      have hres1 : ¬ rA ≤ baseOut := by omega
      have hres2 : ¬ rB ≤ targetOut := by omega
      have hin3B : (if rA - baseOut < (ba0 - baseOut) then ((ba0 - baseOut) - (rA - baseOut)) * 3 else 0)
          = (ba0 - rA) * 3 := by
        split <;> omega
      have hin3T : (if rB - targetOut < (bb0 - targetOut) then ((bb0 - targetOut) - (rB - targetOut)) * 3 else 0)
          = (bb0 - rB) * 3 := by
        split <;> omega
      have hguardf : ((rA - baseOut < (ba0 - baseOut) → (ba0 - baseOut) - (rA - baseOut) = 0)
          ∧ (rB - targetOut < (bb0 - targetOut) → (bb0 - targetOut) - (rB - targetOut) = 0)) = False :=
        eq_false (by omega)
      have hsubB : wsub128 ((ba0 - baseOut) * 1000) ((ba0 - rA) * 3)
          = (ba0 - baseOut) * 1000 - (ba0 - rA) * 3 :=
        adj_sub_eq (by omega) (by omega)
      have hsubT : wsub128 ((bb0 - targetOut) * 1000) ((bb0 - rB) * 3)
          = (bb0 - targetOut) * 1000 - (bb0 - rB) * 3 :=
        adj_sub_eq (by omega) (by omega)
      have hwrapL : wrap128 (((ba0 - baseOut) * 1000 - (ba0 - rA) * 3)
          * ((bb0 - targetOut) * 1000 - (bb0 - rB) * 3))
          = ((ba0 - baseOut) * 1000 - (ba0 - rA) * 3) * ((bb0 - targetOut) * 1000 - (bb0 - rB) * 3) :=
        wrap128_mul_eq (adj_le_bound (by omega)) (adj_le_bound (by omega))
      have hwrapR := wrap128_k_eq hUrA hUrB
      by_cases hk : ((ba0 - baseOut) * 1000 - (ba0 - rA) * 3)
          * ((bb0 - targetOut) * 1000 - (bb0 - rB) * 3) < rA * rB * 1000000
      · have hrun : (xyk_pool_swap 0 1 baseOut targetOut 11 (swapWorld rA rB ba0 bb0)).1
            = .error (.e "k error") := by
          simp [xyk_pool_swap, liquidity_source_id_for_tokens, get_xyk_pool_data,
            set_xyk_pool_data, xyk_pool_update, transfer_from_unchecked, get_asset_quantity,
            mthrow, liftRes, M_bind_eq, M_pure_eq, swapWorld, swapPool, alGet, alSet,
            hout, hltA, hltB, hb0, ht0, hnb, hnt, hres1, hres2, hin3B, hin3T, hguardf,
            hsubB, hsubT, hwrapL, hwrapR, hk]
        refine ⟨by rw [hrun]; simp [hk], fun hge => by omega⟩
      · have hrun : xyk_pool_swap 0 1 baseOut targetOut 11 (swapWorld rA rB ba0 bb0)
            = (.ok (),
              { swapWorld rA rB ba0 bb0 with
                accounts := [(20, ⟨[(0, ba0 - baseOut), (1, bb0 - targetOut)]⟩), (11, ⟨[(0, wrap32 (5 + baseOut)), (1, targetOut)]⟩)],
                dex := (some
                  { owner_account_id := 10, base_asset_id := 0,
                    token_pairs := [(⟨0, 1⟩, ⟨[(LiquiditySourceType.xykPool,
                      LiquiditySourceData.xykPool
                        ({ swapPool rA rB with
                          base_asset_reserve := ba0 - baseOut,
                          target_asset_reserve := bb0 - targetOut }))]⟩)] }) }) := by
          simp [xyk_pool_swap, liquidity_source_id_for_tokens, get_xyk_pool_data,
            set_xyk_pool_data, xyk_pool_update, transfer_from_unchecked, get_asset_quantity,
            mthrow, liftRes, M_bind_eq, M_pure_eq, swapWorld, swapPool, alGet, alSet,
            hout, hltA, hltB, hb0, ht0, hnb, hnt, hres1, hres2, hin3B, hin3T, hguardf,
            hsubB, hsubT, hwrapL, hwrapR, hk]
        refine ⟨⟨fun h => absurd (hrun ▸ h) (by simp), fun h => absurd h (by omega)⟩, ?_⟩
        intro _
        constructor
        · rw [hrun]
        · rw [hrun]
          simp [get_xyk_pool_data, alGet, swapPool]

/-- C1 witness: reserves `(1000, 1000)`, storage `(1000, 1500)` (500 target
deposited), requesting 300 base out: `700000·(1500000 − 1500) ≥ 10¹²`, so the
swap succeeds and the reserves become `(700, 1500)`. -/
theorem xyk_pool_swap_spec_witness :
    (xyk_pool_swap 0 1 300 0 11 (swapWorld 1000 1000 1000 1500)).1 = .ok () ∧
    (get_xyk_pool_data ⟨0, 1⟩
        (xyk_pool_swap 0 1 300 0 11 (swapWorld 1000 1000 1000 1500)).2).1
      = .ok
        { swapPool 1000 1000 with
          base_asset_reserve := 1000 - 300,
          target_asset_reserve := 1500 - 0 } :=
  (xyk_pool_swap_spec 1000 1000 1000 1500 300 0 (by decide) (by decide) (by decide)
    (by decide) (by decide) (by decide) (by decide) (by decide) (by decide) (by decide)).2
    (by decide)

/-!
## Frame lemmas: the DEX registry is only written by the final write-back
-/

theorem preservesDex_pure {α : Type} (a : α) : preservesDex (pure a : M α) :=
  fun _ => rfl

theorem preservesDex_mthrow {α : Type} (er : Err) : preservesDex (mthrow er : M α) :=
  fun _ => rfl

theorem preservesDex_liftRes {α : Type} (r : Res α) : preservesDex (liftRes r) :=
  fun _ => rfl

theorem preservesDex_bind {α β : Type} {x : M α} {f : α → M β}
    (hx : preservesDex x) (hf : ∀ a, preservesDex (f a)) : preservesDex (x >>= f) := by
  intro w
  have hx' := hx w
  rw [M_bind_eq]
  rcases hxw : x w with ⟨r, w1⟩
  rw [hxw] at hx'
  rcases r with a | er
  · dsimp only
    rw [hf a w1]
    exact hx'
  · exact hx'

theorem preservesDex_ite {α : Type} {c : Prop} [Decidable c] {x y : M α}
    (hx : preservesDex x) (hy : preservesDex y) : preservesDex (if c then x else y) := by
  by_cases h : c
  · rw [if_pos h]; exact hx
  · rw [if_neg h]; exact hy

theorem preservesDex_get_asset_quantity (a d : Nat) :
    preservesDex (get_asset_quantity a d) := by
  intro w
  unfold get_asset_quantity
  split
  · rfl
  · split <;> rfl

theorem preservesDex_mint_asset (d a q : Nat) : preservesDex (mint_asset_unchecked d a q) := by
  intro w
  unfold mint_asset_unchecked
  split
  · split
    · rfl
    · split <;> rfl
  · rfl

theorem preservesDex_burn_asset (d a q : Nat) : preservesDex (burn_asset_unchecked d a q) := by
  intro w
  unfold burn_asset_unchecked
  split
  · split
    · rfl
    · split
      · rfl
      · split <;> rfl
  · rfl

theorem preservesDex_transfer_from_unchecked (d f t v : Nat) :
    preservesDex (transfer_from_unchecked d f t v) := by
  intro w
  unfold transfer_from_unchecked
  split
  · rfl
  · split
    · rfl
    · split
      · rfl
      · dsimp only
        split
        · rfl
        · split <;> rfl

theorem preservesDex_transfer_from (d f t v auth : Nat) :
    preservesDex (transfer_from d f t v auth) := by
  intro w
  unfold transfer_from
  split
  · exact preservesDex_transfer_from_unchecked d f t v w
  · rfl

theorem preservesDex_lsift (a b : Nat) :
    preservesDex (liquidity_source_id_for_tokens a b) := by
  intro w
  unfold liquidity_source_id_for_tokens
  split
  · rfl
  · split
    · rfl
    · split <;> rfl

theorem preservesDex_can_manage (auth : Nat) : preservesDex (can_manage_dex auth) := by
  intro w
  unfold can_manage_dex
  split <;> rfl

theorem preservesDex_read_dex : preservesDex read_dex := by
  intro w
  unfold read_dex
  split <;> rfl

theorem preservesDex_get_pool (pid : TokenPairIdm) : preservesDex (get_xyk_pool_data pid) := by
  intro w
  unfold get_xyk_pool_data
  split
  · rfl
  · split
    · rfl
    · split
      · rfl
      · rfl
      · rfl

theorem preservesDex_mint_pool_token (to_id q : Nat) (data : XYKPoolData) :
    preservesDex (xyk_pool_mint_pool_token to_id q data) := by
  unfold xyk_pool_mint_pool_token
  exact preservesDex_bind (preservesDex_mint_asset _ _ _) (fun _ => preservesDex_pure _)

theorem preservesDex_burn_pool_token (from_id v : Nat) (data : XYKPoolData) :
    preservesDex (xyk_pool_burn_pool_token from_id v data) := by
  unfold xyk_pool_burn_pool_token
  exact preservesDex_bind (preservesDex_burn_asset _ _ _) (fun _ => preservesDex_pure _)

theorem preservesDex_mint_fee (data : XYKPoolData) :
    preservesDex (xyk_pool_mint_pool_token_fee data) := by
  unfold xyk_pool_mint_pool_token_fee
  rcases data.fee_to with _ | ft
  · dsimp only
    exact preservesDex_ite (preservesDex_pure _) (preservesDex_pure _)
  · dsimp only
    apply preservesDex_ite
    · apply preservesDex_ite
      · apply preservesDex_ite (preservesDex_mthrow _)
        exact preservesDex_ite (preservesDex_mint_pool_token _ _ _) (preservesDex_pure _)
      · exact preservesDex_pure _
    · exact preservesDex_pure _

theorem preservesDex_mint_with_fee (to_id : Nat) (pid : TokenPairIdm) (a b : Nat)
    (data : XYKPoolData) :
    preservesDex (xyk_pool_mint_pool_token_with_fee to_id pid a b data) := by
  unfold xyk_pool_mint_pool_token_with_fee
  dsimp only
  apply preservesDex_bind (preservesDex_get_asset_quantity _ _)
  intro ba
  apply preservesDex_bind (preservesDex_get_asset_quantity _ _)
  intro bb
  apply preservesDex_bind (preservesDex_mint_fee _)
  intro d
  apply preservesDex_ite
  · apply preservesDex_bind (preservesDex_liftRes _)
    intro y
    apply preservesDex_ite (preservesDex_mthrow _)
    apply preservesDex_bind (preservesDex_mint_pool_token _ _ _)
    intro d2
    exact preservesDex_ite (preservesDex_pure _) (preservesDex_pure _)
  · apply preservesDex_ite
    · apply preservesDex_bind (preservesDex_mthrow _)
      intro y
      apply preservesDex_ite (preservesDex_mthrow _)
      apply preservesDex_bind (preservesDex_mint_pool_token _ _ _)
      intro d2
      exact preservesDex_ite (preservesDex_pure _) (preservesDex_pure _)
    · apply preservesDex_bind (preservesDex_liftRes _)
      intro y
      apply preservesDex_ite (preservesDex_mthrow _)
      apply preservesDex_bind (preservesDex_mint_pool_token _ _ _)
      intro d2
      exact preservesDex_ite (preservesDex_pure _) (preservesDex_pure _)

theorem preservesDex_burn_with_fee (to_id : Nat) (pid : TokenPairIdm) (l : Nat)
    (data : XYKPoolData) :
    preservesDex (xyk_pool_burn_pool_token_with_fee to_id pid l data) := by
  unfold xyk_pool_burn_pool_token_with_fee
  dsimp only
  apply preservesDex_bind (preservesDex_get_asset_quantity _ _)
  intro ba
  apply preservesDex_bind (preservesDex_get_asset_quantity _ _)
  intro bb
  apply preservesDex_bind (preservesDex_mint_fee _)
  intro d
  apply preservesDex_ite (preservesDex_mthrow _)
  apply preservesDex_ite (preservesDex_mthrow _)
  apply preservesDex_bind (preservesDex_burn_pool_token _ _ _)
  intro d2
  apply preservesDex_bind (preservesDex_transfer_from_unchecked _ _ _ _)
  intro u1
  apply preservesDex_bind (preservesDex_transfer_from_unchecked _ _ _ _)
  intro u2
  apply preservesDex_bind (preservesDex_get_asset_quantity _ _)
  intro ba2
  apply preservesDex_bind (preservesDex_get_asset_quantity _ _)
  intro bb2
  dsimp only
  apply preservesDex_ite (preservesDex_mthrow _)
  exact preservesDex_ite (preservesDex_pure _) (preservesDex_pure _)

theorem dexErr_of_preserves {α : Type} {m : M α} (h : preservesDex m) :
    dexUnchangedOnErr m :=
  fun w _ _ => h w

theorem dexErr_mthrow {α : Type} (er : Err) : dexUnchangedOnErr (mthrow er : M α) :=
  fun _ _ _ => rfl

theorem dexErr_bind {α β : Type} {x : M α} {f : α → M β}
    (hx : preservesDex x) (hf : ∀ a, dexUnchangedOnErr (f a)) :
    dexUnchangedOnErr (x >>= f) := by
  intro w er
  have hx' := hx w
  rw [M_bind_eq]
  rcases hxw : x w with ⟨r, w1⟩
  rw [hxw] at hx'
  rcases r with a | er2
  · dsimp only
    intro herr
    rw [hf a w1 er herr]
    exact hx'
  · intro _
    exact hx'

theorem dexErr_ite {α : Type} {c : Prop} [Decidable c] {x y : M α}
    (hx : dexUnchangedOnErr x) (hy : dexUnchangedOnErr y) :
    dexUnchangedOnErr (if c then x else y) := by
  by_cases h : c
  · rw [if_pos h]; exact hx
  · rw [if_neg h]; exact hy

theorem dexErr_set_pool (pid : TokenPairIdm) (d : XYKPoolData) :
    dexUnchangedOnErr (set_xyk_pool_data pid d) := by
  intro w er
  unfold set_xyk_pool_data
  split
  · intro _; rfl
  · split
    · intro _; rfl
    · split
      · intro _; rfl
      · intro h; exact absurd h (by simp)
      · intro _; rfl

/-- C9: add-liquidity, remove-liquidity and the single-pool swap mutate the
DEX registry (hence every stored `XYKPoolData`) only through the single final
write-back: whenever the operation returns an error the registry is exactly
what it was before the operation, even though account balances may already
have moved. -/
theorem pool_ops_error_frame (pid : TokenPairIdm)
    (aD bD aMin bMin l bAsset tAsset bOut tOut rcpt auth : Nat) (w : World) (er : Err) :
    ((xyk_pool_add_liquidity_execute pid aD bD aMin bMin rcpt auth w).1 = .error er →
      ((xyk_pool_add_liquidity_execute pid aD bD aMin bMin rcpt auth w).2).dex = w.dex)
    ∧ ((xyk_pool_remove_liquidity_execute pid l aMin bMin rcpt auth w).1 = .error er →
      ((xyk_pool_remove_liquidity_execute pid l aMin bMin rcpt auth w).2).dex = w.dex)
    ∧ ((xyk_pool_swap bAsset tAsset bOut tOut rcpt w).1 = .error er →
      ((xyk_pool_swap bAsset tAsset bOut tOut rcpt w).2).dex = w.dex) := by
  refine ⟨?_, ?_, ?_⟩
  · refine fun h => ?_
    refine dexErr_bind (preservesDex_get_pool pid) (fun data => ?_) w er h
    refine dexErr_bind (preservesDex_liftRes _) (fun amounts => ?_)
    refine dexErr_bind (preservesDex_transfer_from _ _ _ _ _) (fun u1 => ?_)
    refine dexErr_bind (preservesDex_transfer_from _ _ _ _ _) (fun u2 => ?_)
    refine dexErr_bind (preservesDex_mint_with_fee _ _ _ _ _) (fun d2 => ?_)
    exact dexErr_set_pool pid d2
  · refine fun h => ?_
    refine dexErr_bind (preservesDex_get_pool pid) (fun data => ?_) w er h
    refine dexErr_bind (preservesDex_transfer_from _ _ _ _ _) (fun u1 => ?_)
    refine dexErr_bind (preservesDex_burn_with_fee _ _ _ _) (fun res => ?_)
    refine dexErr_ite (dexErr_mthrow _) ?_
    refine dexErr_ite (dexErr_mthrow _) ?_
    exact dexErr_set_pool pid res.2
  · refine fun h => ?_
    refine dexErr_ite (dexErr_mthrow _) ?_ w er h
    refine dexErr_bind (preservesDex_lsift _ _) (fun tp => ?_)
    refine dexErr_bind (preservesDex_get_pool tp) (fun data => ?_)
    refine dexErr_ite (dexErr_mthrow _) ?_
    refine dexErr_ite ?_ ?_ <;>
      [refine dexErr_bind (preservesDex_transfer_from_unchecked _ _ _ _) (fun u1 => ?_);
       refine dexErr_bind (preservesDex_pure _) (fun u1 => ?_)] <;>
      (refine dexErr_ite ?_ ?_ <;>
        [refine dexErr_bind (preservesDex_transfer_from_unchecked _ _ _ _) (fun u2 => ?_);
         refine dexErr_bind (preservesDex_pure _) (fun u2 => ?_)]) <;>
      refine dexErr_bind (preservesDex_get_asset_quantity _ _) (fun ba => ?_) <;>
      refine dexErr_bind (preservesDex_get_asset_quantity _ _) (fun bb => ?_) <;>
      refine dexErr_ite (dexErr_mthrow _) ?_ <;>
      refine dexErr_ite (dexErr_mthrow _) ?_ <;>
      exact dexErr_set_pool tp _

/-- C9 witness: an add-liquidity that fails in the optimal-deposit step (zero
desired amount) leaves the registry untouched. -/
theorem pool_ops_error_frame_witness :
    ((xyk_pool_add_liquidity_execute ⟨0, 1⟩ 0 0 0 0 11 11 (swapWorld 1 1 1 1)).2).dex
      = (swapWorld 1 1 1 1).dex :=
  (pool_ops_error_frame ⟨0, 1⟩ 0 0 0 0 0 0 0 0 0 11 11 (swapWorld 1 1 1 1)
    (.e "insufficient amount")).1 (by decide)

theorem readOnly_pure {α : Type} (a : α) : readOnly (pure a : M α) := fun _ => rfl

theorem readOnly_mthrow {α : Type} (er : Err) : readOnly (mthrow er : M α) := fun _ => rfl

theorem readOnly_liftRes {α : Type} (r : Res α) : readOnly (liftRes r) := fun _ => rfl

theorem readOnly_bind {α β : Type} {x : M α} {f : α → M β}
    (hx : readOnly x) (hf : ∀ a, readOnly (f a)) : readOnly (x >>= f) := by
  intro w
  rw [M_bind_eq]
  rcases hxw : x w with ⟨r, w1⟩
  have hw1 : w1 = w := by
    have hx' := hx w
    rw [hxw] at hx'
    exact hx'
  cases r with
  | ok a =>
    dsimp only
    rw [hw1]
    exact hf a w
  | error er =>
    dsimp only
    exact hw1

theorem readOnly_ite {α : Type} {c : Prop} [Decidable c] {x y : M α}
    (hx : readOnly x) (hy : readOnly y) : readOnly (if c then x else y) := by
  by_cases h : c
  · rw [if_pos h]; exact hx
  · rw [if_neg h]; exact hy

theorem readOnly_lsift (a b : Nat) : readOnly (liquidity_source_id_for_tokens a b) := by
  intro w
  unfold liquidity_source_id_for_tokens
  split
  · rfl
  · split
    · rfl
    · split
      · rfl
      · rfl

theorem readOnly_read_dex : readOnly read_dex := by
  intro w
  unfold read_dex
  split
  · rfl
  · rfl

theorem readOnly_get_pool (pid : TokenPairIdm) : readOnly (get_xyk_pool_data pid) := by
  intro w
  unfold get_xyk_pool_data
  split
  · rfl
  · split
    · rfl
    · split
      · rfl
      · rfl
      · rfl

theorem readOnly_gaq (account_id asset_id : Nat) :
    readOnly (get_asset_quantity account_id asset_id) := by
  intro w
  unfold get_asset_quantity
  split
  · rfl
  · split
    · rfl
    · rfl

theorem readOnly_get_reserves (a b : Nat) : readOnly (xyk_pool_get_reserves a b) := by
  unfold xyk_pool_get_reserves
  apply readOnly_bind (readOnly_lsift a b)
  intro pid
  apply readOnly_bind (readOnly_get_pool pid)
  intro d
  apply readOnly_bind readOnly_read_dex
  intro dex
  exact readOnly_ite (readOnly_pure _) (readOnly_ite (readOnly_pure _) (readOnly_mthrow _))

/-- The amounts chain of `xyk_pool_get_amounts_out_go`: it is read-only, the
result list is headed by the input amount, has one entry per path element,
and successive entries are linked through `xyk_pool_get_amount_out` over the
reserves oriented along the path. -/
theorem amounts_out_go_spec (path : List Nat) :
    ∀ (amount : Nat) (w : World) (amts : List Nat),
      (xyk_pool_get_amounts_out_go amount path w).1 = .ok amts →
      (xyk_pool_get_amounts_out_go amount path w).2 = w
      ∧ amts.head? = some amount
      ∧ amts.length = max path.length 1
      ∧ ∀ i, i + 1 < path.length →
          ∃ r : Nat × Nat,
            (xyk_pool_get_reserves (path.getD i 0) (path.getD (i + 1) 0) w).1 = .ok r
            ∧ xyk_pool_get_amount_out (amts.getD i 0) r.1 r.2 = .ok (amts.getD (i + 1) 0) := by
  induction path with
  | nil =>
    intro amount w amts h
    have h' : Res.ok [amount] = Res.ok amts := h
    cases h'
    refine ⟨rfl, rfl, by simp only [List.length_cons, List.length_nil]; decide, ?_⟩
    intro i hi
    simp only [List.length_nil] at hi
    omega
  | cons a tail ih =>
    intro amount w amts h
    cases tail with
    | nil =>
      have h' : Res.ok [amount] = Res.ok amts := h
      cases h'
      refine ⟨rfl, rfl, by simp only [List.length_cons, List.length_nil]; decide, ?_⟩
      intro i hi
      simp only [List.length_cons, List.length_nil] at hi
      omega
    | cons b rest =>
      rcases hres : xyk_pool_get_reserves a b w with ⟨r0, w1⟩
      have hw1 : w1 = w := by
        have hro := readOnly_get_reserves a b w
        rw [hres] at hro
        exact hro
      subst w1
      cases r0 with
      | error er =>
        exfalso
        simp only [xyk_pool_get_amounts_out_go] at h
        rw [M_bind_eq, hres] at h
        simp at h
      | ok r =>
        cases hao : xyk_pool_get_amount_out amount r.1 r.2 with
        | error er =>
          exfalso
          simp only [xyk_pool_get_amounts_out_go] at h
          rw [M_bind_eq, hres] at h
          dsimp only at h
          rw [M_bind_eq] at h
          simp only [liftRes] at h
          rw [hao] at h
          simp at h
        | ok nxt =>
          rcases hgo : xyk_pool_get_amounts_out_go nxt (b :: rest) w with ⟨g0, w2⟩
          cases g0 with
          | error er =>
            exfalso
            simp only [xyk_pool_get_amounts_out_go] at h
            rw [M_bind_eq, hres] at h
            dsimp only at h
            rw [M_bind_eq] at h
            simp only [liftRes] at h
            rw [hao] at h
            dsimp only at h
            rw [M_bind_eq, hgo] at h
            simp at h
          | ok tl =>
            have hgo1 : (xyk_pool_get_amounts_out_go nxt (b :: rest) w).1 = .ok tl := by
              rw [hgo]
            obtain ⟨ihw, ihhead, ihlen, ihrec⟩ := ih nxt w tl hgo1
            have hw2 : w2 = w := by
              rw [hgo] at ihw
              exact ihw
            subst w2
            have hfull : xyk_pool_get_amounts_out_go amount (a :: b :: rest) w
                = (.ok (amount :: tl), w) := by
              simp only [xyk_pool_get_amounts_out_go]
              rw [M_bind_eq, hres]
              dsimp only
              rw [M_bind_eq]
              simp only [liftRes]
              rw [hao]
              dsimp only
              rw [M_bind_eq, hgo]
              rfl
            rw [hfull] at h
            have hamts : amount :: tl = amts := by
              simpa using h
            subst hamts
            refine ⟨by rw [hfull], rfl, ?_, ?_⟩
            · have h1 : max (b :: rest).length 1 = (b :: rest).length :=
                max_eq_left (by simp only [List.length_cons]; omega)
              have h2 : max (a :: b :: rest).length 1 = (a :: b :: rest).length :=
                max_eq_left (by simp only [List.length_cons]; omega)
              rw [h2]
              rw [h1] at ihlen
              simp only [List.length_cons] at ihlen ⊢
              omega
            · intro i hi
              cases i with
              | zero =>
                refine ⟨r, ?_, ?_⟩
                · simp only [List.getD_cons_zero, List.getD_cons_succ]
                  rw [hres]
                · have htl0 : tl.getD 0 0 = nxt := by
                    cases tl with
                    | nil => exact absurd ihhead (by simp)
                    | cons t ts =>
                      have ht : t = nxt := by simpa using ihhead
                      simp [ht]
                  simp only [List.getD_cons_zero, List.getD_cons_succ]
                  rw [htl0]
                  exact hao
              | succ j =>
                have hj : j + 1 < (b :: rest).length := by
                  simp only [List.length_cons] at hi ⊢
                  omega
                obtain ⟨r2, hr2, ha2⟩ := ihrec j hj
                refine ⟨r2, ?_, ?_⟩
                · simp only [List.getD_cons_succ]
                  exact hr2
                · simp only [List.getD_cons_succ]
                  exact ha2

/-- C7: corrected multi-hop exact-in specification.  A path shorter than two
hops is rejected as invalid; on a successful amounts computation the vector
is read-only over the world, starts with the input amount, has one entry per
path element and satisfies the oriented `amount_out` recurrence; the
pre-transfer guard fails with the insufficient-output error exactly when the
last amount is below the minimum, and when the guard passes the instruction
continues as the raw token-swap entry point (which can itself fail with the
same error string after the input transfer has already executed). -/
theorem xyk_pool_swap_exact_tokens_spec
    (path : List Nat) (amount_in amount_out_min to_id authority : Nat) (w : World) :
    (path.length < 2 →
      xyk_pool_get_amounts_out amount_in path w = (.error (.e "invalid path"), w)
      ∧ xyk_pool_swap_exact_tokens_for_tokens_execute path amount_in amount_out_min
          to_id authority w = (.error (.e "invalid path"), w))
    ∧ ∀ amts, (xyk_pool_get_amounts_out amount_in path w).1 = .ok amts →
        (xyk_pool_get_amounts_out amount_in path w).2 = w
        ∧ amts.head? = some amount_in
        ∧ amts.length = path.length
        ∧ (∀ i, i + 1 < path.length →
            ∃ r : Nat × Nat,
              (xyk_pool_get_reserves (path.getD i 0) (path.getD (i + 1) 0) w).1 = .ok r
              ∧ xyk_pool_get_amount_out (amts.getD i 0) r.1 r.2 = .ok (amts.getD (i + 1) 0))
        ∧ ∀ l, amts.getLast? = some l →
            (l < amount_out_min →
              xyk_pool_swap_exact_tokens_for_tokens_execute path amount_in amount_out_min
                to_id authority w = (.error (.e "insufficient output amount"), w))
            ∧ (amount_out_min ≤ l →
              xyk_pool_swap_exact_tokens_for_tokens_execute path amount_in amount_out_min
                to_id authority w
                = xyk_pool_swap_tokens_execute path amts to_id authority w) := by
  constructor
  · intro hlen
    have hge : ¬ path.length ≥ 2 := by omega
    have hga : xyk_pool_get_amounts_out amount_in path w
        = (.error (.e "invalid path"), w) := by
      unfold xyk_pool_get_amounts_out
      rw [if_pos hge]
      rfl
    refine ⟨hga, ?_⟩
    unfold xyk_pool_swap_exact_tokens_for_tokens_execute
    rw [M_bind_eq, hga]
  · intro amts hok
    by_cases hlen : path.length ≥ 2
    · have hred : xyk_pool_get_amounts_out amount_in path
          = xyk_pool_get_amounts_out_go amount_in path := by
        unfold xyk_pool_get_amounts_out
        rw [if_neg (not_not_intro hlen)]
      rw [hred] at hok
      obtain ⟨hw, hhead, hlen', hrec⟩ := amounts_out_go_spec path amount_in w amts hok
      have hfull : xyk_pool_get_amounts_out amount_in path w = (.ok amts, w) := by
        rw [hred]
        rcases hpair : xyk_pool_get_amounts_out_go amount_in path w with ⟨r0, w0⟩
        rw [hpair] at hok hw
        simp only at hok hw
        rw [hok, hw]
      refine ⟨by rw [hfull], hhead, ?_, hrec, ?_⟩
      · rw [hlen']
        exact max_eq_left (by omega)
      · intro l hlast
        constructor
        · intro hlt
          unfold xyk_pool_swap_exact_tokens_for_tokens_execute
          rw [M_bind_eq, hfull]
          dsimp only
          rw [hlast]
          dsimp only
          rw [if_pos (by omega : ¬ l ≥ amount_out_min)]
          rfl
        · intro hge2
          unfold xyk_pool_swap_exact_tokens_for_tokens_execute
          rw [M_bind_eq, hfull]
          dsimp only
          rw [hlast]
          dsimp only
          rw [if_neg (not_not_intro hge2)]
    · exfalso
      rw [not_le] at hlen
      have hge : ¬ path.length ≥ 2 := by omega
      unfold xyk_pool_get_amounts_out at hok
      rw [if_pos hge] at hok
      simp [mthrow] at hok

/-- C7 counterexample: with pool reserves `(10^6, 10^6)` and `amount_in = 1`,
the computed amounts are `[1, 0]`, so the last amount meets the minimum `0`
and the pre-transfer guard passes; yet the instruction still fails with the
very same "insufficient output amount" error, after the input transfer has
already debited the caller (account 11 drops from 5 to 4 units of asset 0) —
refuting that the error occurs exactly when `amounts.last < amount_out_min`
and before any transfer. -/
theorem multihop_output_guard_counterexample :
    (xyk_pool_get_amounts_out 1 [0, 1] (swapWorld 1000000 1000000 1000000 1000000)).1
        = .ok [1, 0]
    ∧ (xyk_pool_swap_exact_tokens_for_tokens_execute [0, 1] 1 0 11 11
        (swapWorld 1000000 1000000 1000000 1000000)).1
        = .error (.e "insufficient output amount")
    ∧ (get_asset_quantity 11 0
        ((xyk_pool_swap_exact_tokens_for_tokens_execute [0, 1] 1 0 11 11
          (swapWorld 1000000 1000000 1000000 1000000)).2)).1 = .ok 4 := by
  decide

/-- C7 witness: a short concrete run through the corrected specification. -/
theorem xyk_pool_swap_exact_tokens_spec_witness :
    (xyk_pool_get_amounts_out 100 [0, 1] (swapWorld 1000 1000 1000 1000)).1 = .ok [100, 90]
    ∧ xyk_pool_swap_exact_tokens_for_tokens_execute [0, 1] 100 0 11 11
        (swapWorld 1000 1000 1000 1000)
      = xyk_pool_swap_tokens_execute [0, 1] [100, 90] 11 11 (swapWorld 1000 1000 1000 1000) :=
  ⟨by decide,
    (((xyk_pool_swap_exact_tokens_spec [0, 1] 100 0 11 11
        (swapWorld 1000 1000 1000 1000)).2 [100, 90] (by decide)).2.2.2.2 90
        (by decide)).2 (by decide)⟩

theorem readOnly_fullRun {α : Type} {m : M α} (h : readOnly m) {w : World} {v : α}
    (h1 : (m w).1 = .ok v) : m w = (.ok v, w) := by
  rcases hp : m w with ⟨r, w1⟩
  rw [hp] at h1
  have hw := h w
  rw [hp] at hw
  dsimp only at h1 hw
  rw [h1, hw]

theorem get_pool_no_panic (pid : TokenPairIdm) (w : World) :
    (get_xyk_pool_data pid w).1 ≠ .error .rtPanic := by
  unfold get_xyk_pool_data
  split
  · simp
  · split
    · simp
    · split
      · simp
      · simp
      · simp

theorem gaq_no_panic (account_id asset_id : Nat) (w : World) :
    (get_asset_quantity account_id asset_id w).1 ≠ .error .rtPanic := by
  unfold get_asset_quantity
  split
  · simp
  · split
    · simp
    · simp

/-- C10: corrected owned-liquidity query characterization.  When the pool
lookup and the three balance lookups succeed, the query panics (the Rust
division by zero) exactly when `pool_token_total_supply = 0` — which is
precisely the state of a freshly created pool — and otherwise returns the
two pro-rata shares and the pool-token balance; conversely every panic of
the query comes from a successfully found pool whose total supply is zero. -/
theorem get_owned_liquidity_info_spec (pid : TokenPairIdm) (acct : Nat) (w : World) :
    (∀ d, (get_xyk_pool_data pid w).1 = .ok d →
      ∀ ba, (get_asset_quantity d.storage_account_id pid.base_asset_id w).1 = .ok ba →
      ∀ bb, (get_asset_quantity d.storage_account_id pid.target_asset_id w).1 = .ok bb →
      ∀ pq, (get_asset_quantity acct d.pool_token_asset_definition_id w).1 = .ok pq →
        (d.pool_token_total_supply = 0 →
          get_owned_liquidity_info pid acct w = (.error .rtPanic, w))
        ∧ (d.pool_token_total_supply ≠ 0 →
          get_owned_liquidity_info pid acct w =
            (.ok (wrap32 (pq * ba) / d.pool_token_total_supply,
              wrap32 (pq * bb) / d.pool_token_total_supply, pq), w)))
    ∧ ((get_owned_liquidity_info pid acct w).1 = .error .rtPanic →
        ∃ d, (get_xyk_pool_data pid w).1 = .ok d ∧ d.pool_token_total_supply = 0) := by
  constructor
  · intro d hd ba hba bb hbb pq hpq
    have hdf := readOnly_fullRun (readOnly_get_pool pid) hd
    have hbaf := readOnly_fullRun (readOnly_gaq _ _) hba
    have hbbf := readOnly_fullRun (readOnly_gaq _ _) hbb
    have hpqf := readOnly_fullRun (readOnly_gaq _ _) hpq
    have hrun : get_owned_liquidity_info pid acct w
        = if d.pool_token_total_supply = 0 then ((.error .rtPanic), w)
          else (.ok (wrap32 (pq * ba) / d.pool_token_total_supply,
            wrap32 (pq * bb) / d.pool_token_total_supply, pq), w) := by
      unfold get_owned_liquidity_info
      rw [M_bind_eq, hdf]
      dsimp only
      rw [M_bind_eq, hbaf]
      dsimp only
      rw [M_bind_eq, hbbf]
      dsimp only
      rw [M_bind_eq, hpqf]
      dsimp only
      by_cases hs : d.pool_token_total_supply = 0
      · rw [if_pos hs, if_pos hs]
        rfl
      · rw [if_neg hs, if_neg hs]
        rfl
    constructor
    · intro hs
      rw [hrun, if_pos hs]
    · intro hs
      rw [hrun, if_neg hs]
  · intro h
    rcases hp : get_xyk_pool_data pid w with ⟨p0, w1⟩
    have hw1 : w1 = w := by
      have t := readOnly_get_pool pid w
      rw [hp] at t
      exact t
    subst w1
    cases p0 with
    | error er =>
      exfalso
      have hrun : get_owned_liquidity_info pid acct w = (.error er, w) := by
        unfold get_owned_liquidity_info
        rw [M_bind_eq, hp]
      rw [hrun] at h
      dsimp only at h
      cases h
      have hnp := get_pool_no_panic pid w
      rw [hp] at hnp
      exact hnp rfl
    | ok d =>
      rcases hba : get_asset_quantity d.storage_account_id pid.base_asset_id w with ⟨b0, w2⟩
      have hw2 : w2 = w := by
        have t := readOnly_gaq d.storage_account_id pid.base_asset_id w
        rw [hba] at t
        exact t
      subst w2
      cases b0 with
      | error er =>
        exfalso
        have hrun : get_owned_liquidity_info pid acct w = (.error er, w) := by
          unfold get_owned_liquidity_info
          rw [M_bind_eq, hp]
          dsimp only
          rw [M_bind_eq, hba]
        rw [hrun] at h
        dsimp only at h
        cases h
        have hnp := gaq_no_panic d.storage_account_id pid.base_asset_id w
        rw [hba] at hnp
        exact hnp rfl
      | ok ba =>
        rcases hbb : get_asset_quantity d.storage_account_id pid.target_asset_id w with ⟨c0, w3⟩
        have hw3 : w3 = w := by
          have t := readOnly_gaq d.storage_account_id pid.target_asset_id w
          rw [hbb] at t
          exact t
        subst w3
        cases c0 with
        | error er =>
          exfalso
          have hrun : get_owned_liquidity_info pid acct w = (.error er, w) := by
            unfold get_owned_liquidity_info
            rw [M_bind_eq, hp]
            dsimp only
            rw [M_bind_eq, hba]
            dsimp only
            rw [M_bind_eq, hbb]
          rw [hrun] at h
          dsimp only at h
          cases h
          have hnp := gaq_no_panic d.storage_account_id pid.target_asset_id w
          rw [hbb] at hnp
          exact hnp rfl
        | ok bb =>
          rcases hpq : get_asset_quantity acct d.pool_token_asset_definition_id w with ⟨q0, w4⟩
          have hw4 : w4 = w := by
            have t := readOnly_gaq acct d.pool_token_asset_definition_id w
            rw [hpq] at t
            exact t
          subst w4
          cases q0 with
          | error er =>
            exfalso
            have hrun : get_owned_liquidity_info pid acct w = (.error er, w) := by
              unfold get_owned_liquidity_info
              rw [M_bind_eq, hp]
              dsimp only
              rw [M_bind_eq, hba]
              dsimp only
              rw [M_bind_eq, hbb]
              dsimp only
              rw [M_bind_eq, hpq]
            rw [hrun] at h
            dsimp only at h
            cases h
            have hnp := gaq_no_panic acct d.pool_token_asset_definition_id w
            rw [hpq] at hnp
            exact hnp rfl
          | ok pq =>
            by_cases hs : d.pool_token_total_supply = 0
            · exact ⟨d, rfl, hs⟩
            · exfalso
              have hrun : get_owned_liquidity_info pid acct w
                  = (.ok (wrap32 (pq * ba) / d.pool_token_total_supply,
                    wrap32 (pq * bb) / d.pool_token_total_supply, pq), w) := by
                unfold get_owned_liquidity_info
                rw [M_bind_eq, hp]
                dsimp only
                rw [M_bind_eq, hba]
                dsimp only
                rw [M_bind_eq, hbb]
                dsimp only
                rw [M_bind_eq, hpq]
                dsimp only
                rw [if_neg hs]
                rfl
              rw [hrun] at h
              dsimp only at h
              cases h

/-- C10 counterexample: from the token-pair-only world, a single raw
`CreateLiquiditySource` instruction (authority: the manager) installs a fresh
zero-supply pool whose storage account and pool-token id alias existing
ledger objects, so every lookup of the owned-liquidity query succeeds and
the query reaches the division by zero supply and panics — on a reachable
state and on a pool to which liquidity was never added. -/
theorem owned_liquidity_panic_counterexample :
    Reachable pairOnlyWorld
      (execW (.createLiquiditySource ⟨0, 1⟩ .xykPool (.xykPool poisonedPoolData)) 10
        pairOnlyWorld)
    ∧ (get_owned_liquidity_info ⟨0, 1⟩ 11
        (execW (.createLiquiditySource ⟨0, 1⟩ .xykPool (.xykPool poisonedPoolData)) 10
          pairOnlyWorld)).1 = .error .rtPanic :=
  ⟨Reachable.step _ 10 (Reachable.refl _), by decide⟩

/-- C10 witness: the characterization applied on the world with the freshly
installed zero-supply pool. -/
theorem get_owned_liquidity_info_spec_witness :
    get_owned_liquidity_info ⟨0, 1⟩ 11
        (execW (.createLiquiditySource ⟨0, 1⟩ .xykPool (.xykPool poisonedPoolData)) 10
          pairOnlyWorld)
      = (.error .rtPanic,
          execW (.createLiquiditySource ⟨0, 1⟩ .xykPool (.xykPool poisonedPoolData)) 10
            pairOnlyWorld) :=
  ((get_owned_liquidity_info_spec ⟨0, 1⟩ 11
      (execW (.createLiquiditySource ⟨0, 1⟩ .xykPool (.xykPool poisonedPoolData)) 10
        pairOnlyWorld)).1 poisonedPoolData (by decide) 5 (by decide) 7 (by decide)
      5 (by decide)).1 (by decide)

theorem alGet_mem {κ β : Type} [DecidableEq κ] {k : κ} {b : β} :
    ∀ {l : List (κ × β)}, alGet k l = some b → (k, b) ∈ l := by
  intro l
  induction l with
  | nil =>
    intro h
    simp [alGet] at h
  | cons p t ih =>
    intro h
    rcases p with ⟨k', b'⟩
    simp only [alGet] at h
    by_cases hk : k' = k
    · rw [if_pos hk] at h
      injection h with hb
      subst hk
      subst hb
      exact List.mem_cons_self _ _
    · rw [if_neg hk] at h
      exact List.mem_cons_of_mem _ (ih h)

theorem mem_alSet {κ β : Type} [DecidableEq κ] {k : κ} {b : β} {x : κ × β} :
    ∀ {l : List (κ × β)}, x ∈ alSet k b l → x = (k, b) ∨ x ∈ l := by
  intro l
  induction l with
  | nil =>
    intro h
    simp only [alSet] at h
    exact Or.inl (List.mem_singleton.mp h)
  | cons p t ih =>
    intro h
    rcases p with ⟨k', b'⟩
    simp only [alSet] at h
    by_cases hk : k' = k
    · rw [if_pos hk] at h
      rcases List.mem_cons.mp h with h' | h'
      · exact Or.inl h'
      · exact Or.inr (List.mem_cons_of_mem _ h')
    · rw [if_neg hk] at h
      rcases List.mem_cons.mp h with h' | h'
      · exact Or.inr (h' ▸ List.mem_cons_self _ _)
      · rcases ih h' with h2 | h2
        · exact Or.inl h2
        · exact Or.inr (List.mem_cons_of_mem _ h2)

theorem mem_alRemove {κ β : Type} [DecidableEq κ] {k : κ} {x : κ × β} :
    ∀ {l : List (κ × β)}, x ∈ alRemove k l → x ∈ l := by
  intro l
  induction l with
  | nil =>
    intro h
    simp [alRemove] at h
  | cons p t ih =>
    intro h
    rcases p with ⟨k', b'⟩
    simp only [alRemove] at h
    by_cases hk : k' = k
    · rw [if_pos hk] at h
      exact List.mem_cons_of_mem _ h
    · rw [if_neg hk] at h
      rcases List.mem_cons.mp h with h' | h'
      · exact h' ▸ List.mem_cons_self _ _
      · exact List.mem_cons_of_mem _ (ih h')

theorem poolsBounded_of_dex_eq {w w' : World} (h : w'.dex = w.dex) (hb : w.poolsBounded) :
    w'.poolsBounded := fun dex hd => hb dex (by rw [← h]; exact hd)

theorem keepsBounded_of_preservesDex {α : Type} {m : M α} (h : preservesDex m) :
    keepsBounded m := fun w hb => poolsBounded_of_dex_eq (h w) hb

theorem keepsBounded_of_readOnly {α : Type} {m : M α} (h : readOnly m) :
    keepsBounded m := fun w hb => by rw [h w]; exact hb

theorem keepsBounded_pure {α : Type} (a : α) : keepsBounded (pure a : M α) :=
  keepsBounded_of_readOnly (readOnly_pure a)

theorem keepsBounded_mthrow {α : Type} (er : Err) : keepsBounded (mthrow er : M α) :=
  keepsBounded_of_readOnly (readOnly_mthrow er)

theorem keepsBounded_liftRes {α : Type} (r : Res α) : keepsBounded (liftRes r) :=
  keepsBounded_of_readOnly (readOnly_liftRes r)

theorem keepsBounded_bind {α β : Type} {x : M α} {f : α → M β}
    (hx : keepsBounded x) (hf : ∀ a, keepsBounded (f a)) : keepsBounded (x >>= f) := by
  intro w hb
  rw [M_bind_eq]
  rcases hxw : x w with ⟨r, w1⟩
  have hb1 : w1.poolsBounded := by
    have hx' := hx w hb
    rw [hxw] at hx'
    exact hx'
  cases r with
  | ok a =>
    dsimp only
    exact hf a w1 hb1
  | error er =>
    dsimp only
    exact hb1

theorem keepsBounded_ite {α : Type} {c : Prop} [Decidable c] {x y : M α}
    (hx : keepsBounded x) (hy : keepsBounded y) : keepsBounded (if c then x else y) := by
  by_cases h : c
  · rw [if_pos h]; exact hx
  · rw [if_neg h]; exact hy

theorem get_pool_ok_elim {pid : TokenPairIdm} {w : World} {d : XYKPoolData}
    (h : (get_xyk_pool_data pid w).1 = .ok d) :
    ∃ dex pair, w.dex = some dex ∧ alGet pid dex.token_pairs = some pair
      ∧ alGet LiquiditySourceType.xykPool pair.liquidity_sources
          = some (LiquiditySourceData.xykPool d) := by
  unfold get_xyk_pool_data at h
  cases hdex : w.dex with
  | none =>
    rw [hdex] at h
    simp at h
  | some dex =>
    rw [hdex] at h
    dsimp only at h
    cases hpr : alGet pid dex.token_pairs with
    | none =>
      rw [hpr] at h
      simp at h
    | some pair =>
      rw [hpr] at h
      dsimp only at h
      cases hsrc : alGet LiquiditySourceType.xykPool pair.liquidity_sources with
      | none =>
        rw [hsrc] at h
        simp at h
      | some s =>
        rw [hsrc] at h
        cases s with
        | xykPool d0 =>
          dsimp only at h
          cases h
          exact ⟨dex, pair, rfl, hpr, hsrc⟩
        | orderBook =>
          dsimp only at h
          simp at h

theorem stored_bounded {pid : TokenPairIdm} {w : World} {d : XYKPoolData}
    (h : (get_xyk_pool_data pid w).1 = .ok d) (hb : w.poolsBounded) :
    d.fee ≤ MAX_BASIS_POINTS ∧ d.protocol_fee_part ≤ MAX_BASIS_POINTS := by
  obtain ⟨dex, pair, hdex, hpr, hsrc⟩ := get_pool_ok_elim h
  exact hb dex hdex (pid, pair) (alGet_mem hpr)
    (LiquiditySourceType.xykPool, LiquiditySourceData.xykPool d) (alGet_mem hsrc)

theorem poolsBounded_set_pool {pid : TokenPairIdm} {d : XYKPoolData}
    (hf : d.fee ≤ MAX_BASIS_POINTS) (hp : d.protocol_fee_part ≤ MAX_BASIS_POINTS) :
    ∀ w, w.poolsBounded → ((set_xyk_pool_data pid d w).2).poolsBounded := by
  intro w hb
  unfold set_xyk_pool_data
  cases hdex : w.dex with
  | none => exact hb
  | some dex =>
    dsimp only
    cases hpr : alGet pid dex.token_pairs with
    | none => exact hb
    | some pair =>
      dsimp only
      cases hsrc : alGet LiquiditySourceType.xykPool pair.liquidity_sources with
      | none => exact hb
      | some s =>
        cases s with
        | orderBook => exact hb
        | xykPool d0 =>
          dsimp only
          intro dex' hd'
          dsimp only at hd'
          cases hd'
          intro pr' hpr' s' hs'
          dsimp only at hpr'
          rcases mem_alSet hpr' with heq | hmem
          · subst heq
            dsimp only at hs'
            rcases mem_alSet hs' with heq2 | hmem2
            · subst heq2
              exact ⟨hf, hp⟩
            · exact hb dex hdex (pid, pair) (alGet_mem hpr) s' hmem2
          · exact hb dex hdex pr' hmem s' hs'

theorem feeFieldsEq_refl (d : XYKPoolData) : feeFieldsEq d d := ⟨rfl, rfl⟩

theorem feeFieldsEq_trans {a b c : XYKPoolData}
    (h1 : feeFieldsEq a b) (h2 : feeFieldsEq b c) : feeFieldsEq a c :=
  ⟨h2.1.trans h1.1, h2.2.trans h1.2⟩

theorem mint_pool_token_fees (to_id q : Nat) (data : XYKPoolData) (w : World)
    (d' : XYKPoolData) (h : ((xyk_pool_mint_pool_token to_id q data) w).1 = .ok d') :
    feeFieldsEq data d' := by
  unfold xyk_pool_mint_pool_token at h
  rw [M_bind_eq] at h
  rcases hm : mint_asset_unchecked data.pool_token_asset_definition_id to_id q w with ⟨r, w1⟩
  rw [hm] at h
  cases r with
  | error er => simp at h
  | ok u =>
    dsimp only at h
    rw [M_pure_eq] at h
    dsimp only at h
    cases h
    exact ⟨rfl, rfl⟩

theorem burn_pool_token_fees (from_id v : Nat) (data : XYKPoolData) (w : World)
    (d' : XYKPoolData) (h : ((xyk_pool_burn_pool_token from_id v data) w).1 = .ok d') :
    feeFieldsEq data d' := by
  unfold xyk_pool_burn_pool_token at h
  rw [M_bind_eq] at h
  rcases hm : burn_asset_unchecked data.pool_token_asset_definition_id from_id v w with ⟨r, w1⟩
  rw [hm] at h
  cases r with
  | error er => simp at h
  | ok u =>
    dsimp only at h
    rw [M_pure_eq] at h
    dsimp only at h
    cases h
    exact ⟨rfl, rfl⟩

theorem mint_fee_fees (data : XYKPoolData) (w : World) (d' : XYKPoolData)
    (h : ((xyk_pool_mint_pool_token_fee data) w).1 = .ok d') : feeFieldsEq data d' := by
  unfold xyk_pool_mint_pool_token_fee at h
  cases hft : data.fee_to with
  | some fee_to =>
    rw [hft] at h
    dsimp only at h
    by_cases h1 : data.k_last ≠ 0
    · rw [if_pos h1] at h
      by_cases h2 : isqrt (wrap32 (data.base_asset_reserve * data.target_asset_reserve))
          > isqrt data.k_last
      · rw [if_pos h2] at h
        by_cases h3 : wrap32 (5 * isqrt (wrap32 (data.base_asset_reserve
            * data.target_asset_reserve)) + isqrt data.k_last) = 0
        · rw [if_pos h3] at h
          simp [mthrow] at h
        · rw [if_neg h3] at h
          by_cases h4 : wrap32 (data.pool_token_total_supply
              * (isqrt (wrap32 (data.base_asset_reserve * data.target_asset_reserve))
                - isqrt data.k_last))
              / wrap32 (5 * isqrt (wrap32 (data.base_asset_reserve
                * data.target_asset_reserve)) + isqrt data.k_last) > 0
          · rw [if_pos h4] at h
            exact mint_pool_token_fees _ _ _ _ _ h
          · rw [if_neg h4] at h
            rw [M_pure_eq] at h
            dsimp only at h
            cases h
            exact ⟨rfl, rfl⟩
      · rw [if_neg h2] at h
        rw [M_pure_eq] at h
        dsimp only at h
        cases h
        exact ⟨rfl, rfl⟩
    · rw [if_neg h1] at h
      rw [M_pure_eq] at h
      dsimp only at h
      cases h
      exact ⟨rfl, rfl⟩
  | none =>
    rw [hft] at h
    dsimp only at h
    by_cases h1 : data.k_last ≠ 0
    · rw [if_pos h1] at h
      rw [M_pure_eq] at h
      dsimp only at h
      cases h
      exact ⟨rfl, rfl⟩
    · rw [if_neg h1] at h
      rw [M_pure_eq] at h
      dsimp only at h
      cases h
      exact ⟨rfl, rfl⟩

theorem retSat_pure {α : Type} {a : α} {P : α → Prop} (h : P a) : retSat (pure a : M α) P :=
  fun _ a' h' => by cases h'; exact h

theorem retSat_mthrow {α : Type} (er : Err) (P : α → Prop) : retSat (mthrow er : M α) P :=
  fun _ _ h => Res.noConfusion h

theorem retSat_liftRes_ok {α : Type} {v : α} {P : α → Prop} (h : P v) :
    retSat (liftRes (.ok v)) P :=
  fun _ a h' => by cases h'; exact h

theorem retSat_any {α : Type} (m : M α) : retSat m (fun _ => True) := fun _ _ _ => trivial

theorem retSat_bind {α β : Type} {x : M α} {f : α → M β} {P : α → Prop} {Q : β → Prop}
    (hx : retSat x P) (hf : ∀ a, P a → retSat (f a) Q) : retSat (x >>= f) Q := by
  intro w b h
  rw [M_bind_eq] at h
  rcases hxw : x w with ⟨r, w1⟩
  rw [hxw] at h
  cases r with
  | ok a =>
    dsimp only at h
    exact hf a (hx w a (by rw [hxw])) w1 b h
  | error er =>
    dsimp only at h
    exact Res.noConfusion h

theorem retSat_ite {α : Type} {c : Prop} [Decidable c] {x y : M α} {P : α → Prop}
    (hx : retSat x P) (hy : retSat y P) : retSat (if c then x else y) P := by
  by_cases h : c
  · rw [if_pos h]; exact hx
  · rw [if_neg h]; exact hy

theorem mint_fee_retSat (data : XYKPoolData) :
    retSat (xyk_pool_mint_pool_token_fee data) (feeFieldsEq data) :=
  fun w d' h => mint_fee_fees data w d' h

theorem mint_pool_token_retSat (to_id q : Nat) (data : XYKPoolData) :
    retSat (xyk_pool_mint_pool_token to_id q data) (feeFieldsEq data) :=
  fun w d' h => mint_pool_token_fees to_id q data w d' h

theorem burn_pool_token_retSat (from_id v : Nat) (data : XYKPoolData) :
    retSat (xyk_pool_burn_pool_token from_id v data) (feeFieldsEq data) :=
  fun w d' h => burn_pool_token_fees from_id v data w d' h

theorem retSat_mint_with_fee (to_id : Nat) (pid : TokenPairIdm) (a b : Nat)
    (data : XYKPoolData) :
    retSat (xyk_pool_mint_pool_token_with_fee to_id pid a b data) (feeFieldsEq data) := by
  unfold xyk_pool_mint_pool_token_with_fee
  dsimp only
  refine retSat_bind
    (retSat_any (get_asset_quantity data.storage_account_id pid.base_asset_id)) ?_
  intro ba _
  refine retSat_bind
    (retSat_any (get_asset_quantity data.storage_account_id pid.target_asset_id)) ?_
  intro bb _
  refine retSat_bind (mint_fee_retSat data) ?_
  intro d1 hfe1
  refine retSat_ite ?_ ?_
  · refine retSat_bind
      (@retSat_liftRes_ok _ _ (fun y => feeFieldsEq data y.2) ⟨hfe1.1, hfe1.2⟩) ?_
    intro y hy
    refine retSat_ite (retSat_mthrow _ _) ?_
    refine retSat_bind (mint_pool_token_retSat to_id y.1 y.2) ?_
    intro d2 hfe2
    have hfe3 : feeFieldsEq data d2 := feeFieldsEq_trans hy hfe2
    exact retSat_ite (retSat_pure ⟨hfe3.1, hfe3.2⟩) (retSat_pure ⟨hfe3.1, hfe3.2⟩)
  · refine retSat_ite ?_ ?_
    · refine retSat_bind (retSat_mthrow .rtPanic (fun y => feeFieldsEq data y.2)) ?_
      intro y hy
      refine retSat_ite (retSat_mthrow _ _) ?_
      refine retSat_bind (mint_pool_token_retSat to_id y.1 y.2) ?_
      intro d2 hfe2
      have hfe3 : feeFieldsEq data d2 := feeFieldsEq_trans hy hfe2
      exact retSat_ite (retSat_pure ⟨hfe3.1, hfe3.2⟩) (retSat_pure ⟨hfe3.1, hfe3.2⟩)
    · refine retSat_bind
        (@retSat_liftRes_ok _ _ (fun y => feeFieldsEq data y.2) ⟨hfe1.1, hfe1.2⟩) ?_
      intro y hy
      refine retSat_ite (retSat_mthrow _ _) ?_
      refine retSat_bind (mint_pool_token_retSat to_id y.1 y.2) ?_
      intro d2 hfe2
      have hfe3 : feeFieldsEq data d2 := feeFieldsEq_trans hy hfe2
      exact retSat_ite (retSat_pure ⟨hfe3.1, hfe3.2⟩) (retSat_pure ⟨hfe3.1, hfe3.2⟩)

theorem retSat_burn_with_fee (to_id : Nat) (pid : TokenPairIdm) (l : Nat)
    (data : XYKPoolData) :
    retSat (xyk_pool_burn_pool_token_with_fee to_id pid l data)
      (fun res => feeFieldsEq data res.2) := by
  unfold xyk_pool_burn_pool_token_with_fee
  dsimp only
  refine retSat_bind
    (retSat_any (get_asset_quantity data.storage_account_id pid.base_asset_id)) ?_
  intro ba _
  refine retSat_bind
    (retSat_any (get_asset_quantity data.storage_account_id pid.target_asset_id)) ?_
  intro bb _
  refine retSat_bind (mint_fee_retSat data) ?_
  intro d1 hfe1
  refine retSat_ite (retSat_mthrow _ _) ?_
  refine retSat_ite (retSat_mthrow _ _) ?_
  refine retSat_bind (burn_pool_token_retSat d1.storage_account_id l d1) ?_
  intro d2 hfe2
  have hfe3 : feeFieldsEq data d2 := feeFieldsEq_trans hfe1 hfe2
  refine retSat_bind (retSat_any (transfer_from_unchecked _ _ _ _)) ?_
  intro u1 _
  refine retSat_bind (retSat_any (transfer_from_unchecked _ _ _ _)) ?_
  intro u2 _
  refine retSat_bind (retSat_any (get_asset_quantity _ _)) ?_
  intro ba2 _
  refine retSat_bind (retSat_any (get_asset_quantity _ _)) ?_
  intro bb2 _
  dsimp only
  refine retSat_ite (retSat_mthrow _ _) ?_
  exact retSat_ite (retSat_pure ⟨hfe3.1, hfe3.2⟩) (retSat_pure ⟨hfe3.1, hfe3.2⟩)

theorem readOnly_can_manage (auth : Nat) : readOnly (can_manage_dex auth) := by
  intro w
  unfold can_manage_dex
  split
  · rfl
  · rfl

theorem preservesDex_add_perm (ad acct : Nat) :
    preservesDex (add_transfer_permission_execute ad acct) := by
  intro w
  unfold add_transfer_permission_execute
  split
  · rfl
  · rfl

theorem poolsBounded_ite_app {α : Type} {c : Prop} [Decidable c] {x y : M α} {w : World}
    (hx : c → ((x w).2).poolsBounded) (hy : ¬ c → ((y w).2).poolsBounded) :
    (((if c then x else y) w).2).poolsBounded := by
  by_cases h : c
  · rw [if_pos h]; exact hx h
  · rw [if_neg h]; exact hy h

theorem poolsBounded_ite_pair {α : Type} {c : Prop} [Decidable c] {p q : Res α × World}
    (hx : c → (p.2).poolsBounded) (hy : ¬ c → (q.2).poolsBounded) :
    ((if c then p else q).2).poolsBounded := by
  by_cases h : c
  · rw [if_pos h]; exact hx h
  · rw [if_neg h]; exact hy h

theorem readOnly_amounts_out_go (path : List Nat) :
    ∀ amount : Nat, readOnly (xyk_pool_get_amounts_out_go amount path) := by
  induction path with
  | nil =>
    intro amount
    exact readOnly_pure _
  | cons a tail ih =>
    intro amount
    cases tail with
    | nil => exact readOnly_pure _
    | cons b rest =>
      refine readOnly_bind (readOnly_get_reserves a b) ?_
      intro r
      refine readOnly_bind (readOnly_liftRes _) ?_
      intro nxt
      refine readOnly_bind (ih nxt) ?_
      intro tl
      exact readOnly_pure _

theorem readOnly_amounts_out (amount_in : Nat) (path : List Nat) :
    readOnly (xyk_pool_get_amounts_out amount_in path) := by
  unfold xyk_pool_get_amounts_out
  exact readOnly_ite (readOnly_mthrow _) (readOnly_amounts_out_go path amount_in)

theorem readOnly_amounts_in_go (path : List Nat) :
    ∀ amount : Nat, readOnly (xyk_pool_get_amounts_in_go amount path) := by
  induction path with
  | nil =>
    intro amount
    exact readOnly_pure _
  | cons a tail ih =>
    intro amount
    cases tail with
    | nil => exact readOnly_pure _
    | cons b rest =>
      refine readOnly_bind (readOnly_get_reserves b a) ?_
      intro r
      refine readOnly_bind (readOnly_liftRes _) ?_
      intro prev
      refine readOnly_bind (ih prev) ?_
      intro tl
      exact readOnly_pure _

theorem readOnly_amounts_in (amount_out : Nat) (path : List Nat) :
    readOnly (xyk_pool_get_amounts_in amount_out path) := by
  unfold xyk_pool_get_amounts_in
  refine readOnly_ite (readOnly_mthrow _) ?_
  refine readOnly_bind (readOnly_amounts_in_go path.reverse amount_out) ?_
  intro rev
  exact readOnly_pure _

theorem keepsBounded_add_liquidity (pid : TokenPairIdm) (aD bD aMin bMin to_id auth : Nat) :
    keepsBounded (xyk_pool_add_liquidity_execute pid aD bD aMin bMin to_id auth) := by
  intro w hb
  unfold xyk_pool_add_liquidity_execute
  rw [M_bind_eq]
  rcases hg : get_xyk_pool_data pid w with ⟨g0, w0⟩
  have hw0 : w0 = w := by
    have t := readOnly_get_pool pid w
    rw [hg] at t
    exact t
  subst w0
  cases g0 with
  | error er => exact hb
  | ok data =>
    dsimp only
    rw [M_bind_eq]
    cases hR : xyk_pool_get_optimal_deposit_amounts data.base_asset_reserve
        data.target_asset_reserve aD bD aMin bMin with
    | error er =>
      dsimp only [liftRes]
      exact hb
    | ok amounts =>
      dsimp only [liftRes]
      rw [M_bind_eq]
      rcases h1 : transfer_from pid.base_asset_id auth data.storage_account_id amounts.1 auth w
        with ⟨r1, w1⟩
      have hb1 : w1.poolsBounded := by
        refine poolsBounded_of_dex_eq ?_ hb
        have t := preservesDex_transfer_from pid.base_asset_id auth data.storage_account_id
          amounts.1 auth w
        rw [h1] at t
        exact t
      cases r1 with
      | error er => exact hb1
      | ok u1 =>
        dsimp only
        rw [M_bind_eq]
        rcases h2 : transfer_from pid.target_asset_id auth data.storage_account_id
            amounts.2 auth w1 with ⟨r2, w2⟩
        have hb2 : w2.poolsBounded := by
          refine poolsBounded_of_dex_eq ?_ hb1
          have t := preservesDex_transfer_from pid.target_asset_id auth data.storage_account_id
            amounts.2 auth w1
          rw [h2] at t
          exact t
        cases r2 with
        | error er => exact hb2
        | ok u2 =>
          dsimp only
          rw [M_bind_eq]
          rcases h3 : xyk_pool_mint_pool_token_with_fee to_id pid amounts.1 amounts.2 data w2
            with ⟨r3, w3⟩
          have hb3 : w3.poolsBounded := by
            refine poolsBounded_of_dex_eq ?_ hb2
            have t := preservesDex_mint_with_fee to_id pid amounts.1 amounts.2 data w2
            rw [h3] at t
            exact t
          cases r3 with
          | error er => exact hb3
          | ok d2 =>
            dsimp only
            have hfe : feeFieldsEq data d2 :=
              retSat_mint_with_fee to_id pid amounts.1 amounts.2 data w2 d2 (by rw [h3])
            have hsb := stored_bounded (show (get_xyk_pool_data pid w).1 = .ok data by rw [hg]) hb
            exact poolsBounded_set_pool (by rw [hfe.1]; exact hsb.1)
              (by rw [hfe.2]; exact hsb.2) w3 hb3

theorem keepsBounded_remove_liquidity (pid : TokenPairIdm) (l aMin bMin to_id auth : Nat) :
    keepsBounded (xyk_pool_remove_liquidity_execute pid l aMin bMin to_id auth) := by
  intro w hb
  unfold xyk_pool_remove_liquidity_execute
  rw [M_bind_eq]
  rcases hg : get_xyk_pool_data pid w with ⟨g0, w0⟩
  have hw0 : w0 = w := by
    have t := readOnly_get_pool pid w
    rw [hg] at t
    exact t
  subst w0
  cases g0 with
  | error er => exact hb
  | ok data =>
    dsimp only
    rw [M_bind_eq]
    rcases h1 : transfer_from data.pool_token_asset_definition_id auth data.storage_account_id
        l auth w with ⟨r1, w1⟩
    have hb1 : w1.poolsBounded := by
      refine poolsBounded_of_dex_eq ?_ hb
      have t := preservesDex_transfer_from data.pool_token_asset_definition_id auth
        data.storage_account_id l auth w
      rw [h1] at t
      exact t
    cases r1 with
    | error er => exact hb1
    | ok u1 =>
      dsimp only
      rw [M_bind_eq]
      rcases h2 : xyk_pool_burn_pool_token_with_fee to_id pid l data w1 with ⟨r2, w2⟩
      have hb2 : w2.poolsBounded := by
        refine poolsBounded_of_dex_eq ?_ hb1
        have t := preservesDex_burn_with_fee to_id pid l data w1
        rw [h2] at t
        exact t
      cases r2 with
      | error er => exact hb2
      | ok res =>
        dsimp only
        refine poolsBounded_ite_app (fun _ => hb2) ?_
        intro h5
        refine poolsBounded_ite_app (fun _ => hb2) ?_
        intro h6
        have hfe : feeFieldsEq data res.2 :=
          retSat_burn_with_fee to_id pid l data w1 res (by rw [h2])
        have hsb := stored_bounded (show (get_xyk_pool_data pid w).1 = .ok data by rw [hg]) hb
        exact poolsBounded_set_pool (by rw [hfe.1]; exact hsb.1)
          (by rw [hfe.2]; exact hsb.2) w2 hb2

theorem keepsBounded_swap_tail (tp : TokenPairIdm) (data : XYKPoolData)
    (base_asset_id target_asset_id base_amount_out target_amount_out : Nat)
    (hf : data.fee ≤ MAX_BASIS_POINTS) (hp : data.protocol_fee_part ≤ MAX_BASIS_POINTS) :
    ∀ w, w.poolsBounded →
      (((do
        let base_balance ← get_asset_quantity data.storage_account_id base_asset_id
        let target_balance ← get_asset_quantity data.storage_account_id target_asset_id
        let base_amount_in :=
          if base_balance > data.base_asset_reserve - base_amount_out then
            base_balance - (data.base_asset_reserve - base_amount_out)
          else 0
        let target_amount_in :=
          if target_balance > data.target_asset_reserve - target_amount_out then
            target_balance - (data.target_asset_reserve - target_amount_out)
          else 0
        if ¬ (base_amount_in > 0 ∨ target_amount_in > 0) then
          mthrow (.e "insufficient input amount")
        else
          let base_balance_adjusted := wsub128 (base_balance * 1000) (base_amount_in * 3)
          let target_balance_adjusted := wsub128 (target_balance * 1000) (target_amount_in * 3)
          if ¬ (wrap128 (base_balance_adjusted * target_balance_adjusted) ≥
              wrap128 (data.base_asset_reserve * data.target_asset_reserve * 1000000)) then
            mthrow (.e "k error")
          else
            set_xyk_pool_data tp
              (xyk_pool_update base_balance target_balance data)) : M Unit) w).2.poolsBounded := by
  intro w hb
  rw [M_bind_eq]
  rcases h1 : get_asset_quantity data.storage_account_id base_asset_id w with ⟨r1, w1⟩
  have hw1 : w1 = w := by
    have t := readOnly_gaq data.storage_account_id base_asset_id w
    rw [h1] at t
    exact t
  subst w1
  cases r1 with
  | error er => exact hb
  | ok bbal =>
    dsimp only
    rw [M_bind_eq]
    rcases h2 : get_asset_quantity data.storage_account_id target_asset_id w with ⟨r2, w2⟩
    have hw2 : w2 = w := by
      have t := readOnly_gaq data.storage_account_id target_asset_id w
      rw [h2] at t
      exact t
    subst w2
    cases r2 with
    | error er => exact hb
    | ok tbal =>
      dsimp only
      refine poolsBounded_ite_app (fun _ => hb) ?_
      intro hg1
      refine poolsBounded_ite_app (fun _ => hb) ?_
      intro hg2
      exact @poolsBounded_set_pool tp (xyk_pool_update bbal tbal data) hf hp w hb

theorem keepsBounded_swap
    (base_asset_id target_asset_id base_amount_out target_amount_out to_id : Nat) :
    keepsBounded
      (xyk_pool_swap base_asset_id target_asset_id base_amount_out target_amount_out to_id) := by
  intro w hb
  unfold xyk_pool_swap
  dsimp only
  refine poolsBounded_ite_app (fun _ => hb) ?_
  intro hg0
  rw [M_bind_eq]
  rcases hls : liquidity_source_id_for_tokens base_asset_id target_asset_id w with ⟨l0, w1⟩
  have hw1 : w1 = w := by
    have t := readOnly_lsift base_asset_id target_asset_id w
    rw [hls] at t
    exact t
  subst w1
  cases l0 with
  | error er => exact hb
  | ok tp =>
    dsimp only
    rw [M_bind_eq]
    rcases hg : get_xyk_pool_data tp w with ⟨g0, w2⟩
    have hw2 : w2 = w := by
      have t := readOnly_get_pool tp w
      rw [hg] at t
      exact t
    subst w2
    cases g0 with
    | error er => exact hb
    | ok data =>
      dsimp only
      have hsb := stored_bounded (show (get_xyk_pool_data tp w).1 = .ok data by rw [hg]) hb
      refine poolsBounded_ite_app (fun _ => hb) ?_
      intro hg1
      refine poolsBounded_ite_app ?_ ?_
      · intro hbo
        rw [M_bind_eq]
        rcases ht1 : transfer_from_unchecked base_asset_id data.storage_account_id to_id
            base_amount_out w with ⟨t1, w3⟩
        have hb3 : w3.poolsBounded := by
          refine poolsBounded_of_dex_eq ?_ hb
          have t := preservesDex_transfer_from_unchecked base_asset_id data.storage_account_id
            to_id base_amount_out w
          rw [ht1] at t
          exact t
        cases t1 with
        | error er => exact hb3
        | ok u1 =>
          dsimp only
          refine poolsBounded_ite_app ?_ ?_
          · intro hto
            rw [M_bind_eq]
            rcases ht2 : transfer_from_unchecked target_asset_id data.storage_account_id to_id
                target_amount_out w3 with ⟨t2, w4⟩
            have hb4 : w4.poolsBounded := by
              refine poolsBounded_of_dex_eq ?_ hb3
              have t := preservesDex_transfer_from_unchecked target_asset_id
                data.storage_account_id to_id target_amount_out w3
              rw [ht2] at t
              exact t
            cases t2 with
            | error er => exact hb4
            | ok u2 =>
              dsimp only
              exact keepsBounded_swap_tail tp data base_asset_id target_asset_id
                base_amount_out target_amount_out hsb.1 hsb.2 w4 hb4
          · intro hto
            rw [M_bind_eq, M_pure_eq]
            dsimp only
            exact keepsBounded_swap_tail tp data base_asset_id target_asset_id
              base_amount_out target_amount_out hsb.1 hsb.2 w3 hb3
      · intro hbo
        rw [M_bind_eq, M_pure_eq]
        dsimp only
        refine poolsBounded_ite_app ?_ ?_
        · intro hto
          rw [M_bind_eq]
          rcases ht2 : transfer_from_unchecked target_asset_id data.storage_account_id to_id
              target_amount_out w with ⟨t2, w4⟩
          have hb4 : w4.poolsBounded := by
            refine poolsBounded_of_dex_eq ?_ hb
            have t := preservesDex_transfer_from_unchecked target_asset_id
              data.storage_account_id to_id target_amount_out w
            rw [ht2] at t
            exact t
          cases t2 with
          | error er => exact hb4
          | ok u2 =>
            dsimp only
            exact keepsBounded_swap_tail tp data base_asset_id target_asset_id
              base_amount_out target_amount_out hsb.1 hsb.2 w4 hb4
        · intro hto
          rw [M_bind_eq, M_pure_eq]
          dsimp only
          exact keepsBounded_swap_tail tp data base_asset_id target_asset_id
            base_amount_out target_amount_out hsb.1 hsb.2 w hb

theorem keepsBounded_swap_all (to_id : Nat) :
    ∀ path amounts : List Nat, keepsBounded (xyk_pool_swap_all to_id path amounts) := by
  intro path
  induction path with
  | nil =>
    intro amounts
    exact keepsBounded_mthrow _
  | cons a tail ih =>
    intro amounts
    cases tail with
    | nil => exact keepsBounded_pure _
    | cons b rest =>
      cases amounts with
      | nil => exact keepsBounded_mthrow _
      | cons a0 amts =>
        cases amts with
        | nil => exact keepsBounded_mthrow _
        | cons out arest =>
          unfold xyk_pool_swap_all
          dsimp only
          refine keepsBounded_bind (keepsBounded_of_readOnly readOnly_read_dex) ?_
          intro dex
          refine keepsBounded_ite ?_ ?_
          · refine keepsBounded_bind (keepsBounded_liftRes _) ?_
            intro oriented
            cases rest with
            | nil =>
              dsimp only
              refine keepsBounded_bind (keepsBounded_pure _) ?_
              intro next_acct
              refine keepsBounded_bind (keepsBounded_swap _ _ _ _ _) ?_
              intro u
              exact ih (out :: arest)
            | cons nh rtail =>
              dsimp only
              refine keepsBounded_bind (keepsBounded_of_readOnly (readOnly_lsift b nh)) ?_
              intro pid2
              refine keepsBounded_bind (keepsBounded_of_readOnly (readOnly_get_pool pid2)) ?_
              intro d2
              refine keepsBounded_bind (keepsBounded_pure _) ?_
              intro next_acct
              refine keepsBounded_bind (keepsBounded_swap _ _ _ _ _) ?_
              intro u
              exact ih (out :: arest)
          · refine keepsBounded_ite ?_ ?_
            · refine keepsBounded_bind (keepsBounded_liftRes _) ?_
              intro oriented
              cases rest with
              | nil =>
                dsimp only
                refine keepsBounded_bind (keepsBounded_pure _) ?_
                intro next_acct
                refine keepsBounded_bind (keepsBounded_swap _ _ _ _ _) ?_
                intro u
                exact ih (out :: arest)
              | cons nh rtail =>
                dsimp only
                refine keepsBounded_bind (keepsBounded_of_readOnly (readOnly_lsift b nh)) ?_
                intro pid2
                refine keepsBounded_bind (keepsBounded_of_readOnly (readOnly_get_pool pid2)) ?_
                intro d2
                refine keepsBounded_bind (keepsBounded_pure _) ?_
                intro next_acct
                refine keepsBounded_bind (keepsBounded_swap _ _ _ _ _) ?_
                intro u
                exact ih (out :: arest)
            · refine keepsBounded_bind (keepsBounded_mthrow _) ?_
              intro oriented
              cases rest with
              | nil =>
                dsimp only
                refine keepsBounded_bind (keepsBounded_pure _) ?_
                intro next_acct
                refine keepsBounded_bind (keepsBounded_swap _ _ _ _ _) ?_
                intro u
                exact ih (out :: arest)
              | cons nh rtail =>
                dsimp only
                refine keepsBounded_bind (keepsBounded_of_readOnly (readOnly_lsift b nh)) ?_
                intro pid2
                refine keepsBounded_bind (keepsBounded_of_readOnly (readOnly_get_pool pid2)) ?_
                intro d2
                refine keepsBounded_bind (keepsBounded_pure _) ?_
                intro next_acct
                refine keepsBounded_bind (keepsBounded_swap _ _ _ _ _) ?_
                intro u
                exact ih (out :: arest)

theorem keepsBounded_swap_tokens_execute (path amounts : List Nat) (to_id auth : Nat) :
    keepsBounded (xyk_pool_swap_tokens_execute path amounts to_id auth) := by
  cases path with
  | nil => exact keepsBounded_mthrow _
  | cons p0 ptail =>
    cases ptail with
    | nil => exact keepsBounded_mthrow _
    | cons p1 prest =>
      cases amounts with
      | nil => exact keepsBounded_mthrow _
      | cons a0 arest =>
        unfold xyk_pool_swap_tokens_execute
        dsimp only
        refine keepsBounded_bind (keepsBounded_of_readOnly (readOnly_lsift _ _)) ?_
        intro pid
        refine keepsBounded_bind (keepsBounded_of_readOnly (readOnly_get_pool _)) ?_
        intro d
        refine keepsBounded_bind
          (keepsBounded_of_preservesDex (preservesDex_transfer_from _ _ _ _ _)) ?_
        intro u
        exact keepsBounded_swap_all _ _ _

theorem keepsBounded_swap_exact (path : List Nat) (aIn aOutMin to_id auth : Nat) :
    keepsBounded (xyk_pool_swap_exact_tokens_for_tokens_execute path aIn aOutMin to_id auth) := by
  unfold xyk_pool_swap_exact_tokens_for_tokens_execute
  refine keepsBounded_bind (keepsBounded_of_readOnly (readOnly_amounts_out aIn path)) ?_
  intro amounts
  cases hl : amounts.getLast? with
  | none => exact keepsBounded_mthrow _
  | some l =>
    dsimp only
    exact keepsBounded_ite (keepsBounded_mthrow _) (keepsBounded_swap_tokens_execute _ _ _ _)

theorem keepsBounded_swap_forexact (path : List Nat) (aOut aInMax to_id auth : Nat) :
    keepsBounded (xyk_pool_swap_tokens_for_exact_tokens_execute path aOut aInMax to_id auth) := by
  unfold xyk_pool_swap_tokens_for_exact_tokens_execute
  refine keepsBounded_bind (keepsBounded_of_readOnly (readOnly_amounts_in aOut path)) ?_
  intro amounts
  cases hl : amounts.head? with
  | none => exact keepsBounded_mthrow _
  | some first =>
    dsimp only
    exact keepsBounded_ite (keepsBounded_mthrow _) (keepsBounded_swap_tokens_execute _ _ _ _)

theorem keepsBounded_set_fee (pid : TokenPairIdm) (v auth : Nat) :
    keepsBounded (xyk_pool_set_fee_execute pid v auth) := by
  intro w hb
  unfold xyk_pool_set_fee_execute
  rw [M_bind_eq]
  rcases hc : can_manage_dex auth w with ⟨c0, w1⟩
  have hw1 : w1 = w := by
    have t := readOnly_can_manage auth w
    rw [hc] at t
    exact t
  subst w1
  cases c0 with
  | error er => exact hb
  | ok u =>
    dsimp only
    rw [M_bind_eq]
    rcases hg : get_xyk_pool_data pid w with ⟨g0, w2⟩
    have hw2 : w2 = w := by
      have t := readOnly_get_pool pid w
      rw [hg] at t
      exact t
    subst w2
    cases g0 with
    | error er => exact hb
    | ok data =>
      dsimp only
      refine poolsBounded_ite_app (fun _ => hb) ?_
      intro hnot
      have hsb := stored_bounded (show (get_xyk_pool_data pid w).1 = .ok data by rw [hg]) hb
      have hv : v ≤ MAX_BASIS_POINTS := by omega
      exact @poolsBounded_set_pool pid ({ data with fee := v }) hv hsb.2 w hb

theorem keepsBounded_set_pfp (pid : TokenPairIdm) (v auth : Nat) :
    keepsBounded (xyk_pool_set_protocol_fee_part_execute pid v auth) := by
  intro w hb
  unfold xyk_pool_set_protocol_fee_part_execute
  rw [M_bind_eq]
  rcases hc : can_manage_dex auth w with ⟨c0, w1⟩
  have hw1 : w1 = w := by
    have t := readOnly_can_manage auth w
    rw [hc] at t
    exact t
  subst w1
  cases c0 with
  | error er => exact hb
  | ok u =>
    dsimp only
    rw [M_bind_eq]
    rcases hg : get_xyk_pool_data pid w with ⟨g0, w2⟩
    have hw2 : w2 = w := by
      have t := readOnly_get_pool pid w
      rw [hg] at t
      exact t
    subst w2
    cases g0 with
    | error er => exact hb
    | ok data =>
      dsimp only
      refine poolsBounded_ite_app (fun _ => hb) ?_
      intro hnot
      have hsb := stored_bounded (show (get_xyk_pool_data pid w).1 = .ok data by rw [hg]) hb
      have hv : v ≤ MAX_BASIS_POINTS := by omega
      exact @poolsBounded_set_pool pid ({ data with protocol_fee_part := v }) hsb.1 hv w hb

theorem keepsBounded_create_source (pid : TokenPairIdm) (ty : LiquiditySourceType)
    (payload : LiquiditySourceData) (auth : Nat) (hsrc : srcBounded payload) :
    keepsBounded (create_liquidity_source_execute pid ty payload auth) := by
  intro w hb
  unfold create_liquidity_source_execute
  rw [M_bind_eq]
  rcases hc : can_manage_dex auth w with ⟨c0, w1⟩
  have hw1 : w1 = w := by
    have t := readOnly_can_manage auth w
    rw [hc] at t
    exact t
  subst w1
  cases c0 with
  | error er => exact hb
  | ok u =>
    dsimp only
    cases hdex : w.dex with
    | none => exact hb
    | some dex =>
      dsimp only
      cases hpr : alGet pid dex.token_pairs with
      | none => exact hb
      | some pair =>
        dsimp only
        cases hsg : alGet ty pair.liquidity_sources with
        | some s => exact hb
        | none =>
          dsimp only
          intro dex' hd'
          dsimp only at hd'
          cases hd'
          intro pr' hpr' s' hs'
          dsimp only at hpr'
          rcases mem_alSet hpr' with heq | hmem
          · subst heq
            dsimp only at hs'
            rcases mem_alSet hs' with heq2 | hmem2
            · subst heq2
              exact hsrc
            · exact hb dex hdex (pid, pair) (alGet_mem hpr) s' hmem2
          · exact hb dex hdex pr' hmem s' hs'

theorem keepsBounded_create_pair (b t auth : Nat) :
    keepsBounded (create_token_pair_execute b t auth) := by
  intro w hb
  unfold create_token_pair_execute
  rw [M_bind_eq]
  rcases hc : can_manage_dex auth w with ⟨c0, w1⟩
  have hw1 : w1 = w := by
    have tt := readOnly_can_manage auth w
    rw [hc] at tt
    exact tt
  subst w1
  cases c0 with
  | error er => exact hb
  | ok u =>
    dsimp only
    rw [M_bind_eq]
    rcases hrd : read_dex w with ⟨r0, w2⟩
    have hw2 : w2 = w := by
      have tt := readOnly_read_dex w
      rw [hrd] at tt
      exact tt
    subst w2
    cases r0 with
    | error er => exact hb
    | ok dex0 =>
      dsimp only
      refine poolsBounded_ite_pair (fun _ => hb) ?_
      intro hc1
      refine poolsBounded_ite_pair (fun _ => hb) ?_
      intro hc2
      refine poolsBounded_ite_pair (fun _ => hb) ?_
      intro hc3
      refine poolsBounded_ite_pair (fun _ => hb) ?_
      intro hc4
      cases hdex : w.dex with
      | none => exact hb
      | some dex =>
        dsimp only
        cases hpr : alGet ⟨b, t⟩ dex.token_pairs with
        | some pair => exact hb
        | none =>
          dsimp only
          intro dex' hd'
          dsimp only at hd'
          cases hd'
          intro pr' hpr' s' hs'
          dsimp only at hpr'
          rcases mem_alSet hpr' with heq | hmem
          · subst heq
            dsimp only at hs'
            exact absurd hs' (List.not_mem_nil _)
          · exact hb dex hdex pr' hmem s' hs'

theorem keepsBounded_remove_pair (b t auth : Nat) :
    keepsBounded (remove_token_pair_execute b t auth) := by
  intro w hb
  unfold remove_token_pair_execute
  rw [M_bind_eq]
  rcases hc : can_manage_dex auth w with ⟨c0, w1⟩
  have hw1 : w1 = w := by
    have tt := readOnly_can_manage auth w
    rw [hc] at tt
    exact tt
  subst w1
  cases c0 with
  | error er => exact hb
  | ok u =>
    dsimp only
    cases hdex : w.dex with
    | none => exact hb
    | some dex =>
      dsimp only
      cases hpr : alGet ⟨b, t⟩ dex.token_pairs with
      | none => exact hb
      | some pair =>
        dsimp only
        intro dex' hd'
        dsimp only at hd'
        cases hd'
        intro pr' hpr' s' hs'
        dsimp only at hpr'
        exact hb dex hdex pr' (mem_alRemove hpr') s' hs'

theorem keepsBounded_init_dex (dexp : DEXm) (auth : Nat) (hd : dexBounded dexp) :
    keepsBounded (initialize_dex_execute dexp auth) := by
  intro w hb
  unfold initialize_dex_execute
  rw [M_bind_eq]
  rcases hc : can_manage_dex auth w with ⟨c0, w1⟩
  have hw1 : w1 = w := by
    have tt := readOnly_can_manage auth w
    rw [hc] at tt
    exact tt
  subst w1
  cases c0 with
  | error er => exact hb
  | ok u =>
    dsimp only
    cases hacct : alGet dexp.owner_account_id w.accounts with
    | none => exact hb
    | some acct =>
      dsimp only
      cases hdex : w.dex with
      | some d0 => exact hb
      | none =>
        dsimp only
        intro dex' hd'
        dsimp only at hd'
        cases hd'
        exact hd

theorem exec_keepsBounded (i : Instr) (auth : Nat) (hi : InstrOk i) :
    keepsBounded (exec i auth) := by
  cases i with
  | initializeDEX dexp => exact keepsBounded_init_dex dexp auth hi
  | createTokenPair b t => exact keepsBounded_create_pair b t auth
  | removeTokenPair b t => exact keepsBounded_remove_pair b t auth
  | createLiquiditySource pid ty d => exact keepsBounded_create_source pid ty d auth hi
  | addLiquidity pid aD bD aMin bMin =>
    exact keepsBounded_add_liquidity pid aD bD aMin bMin auth auth
  | removeLiquidity pid l aMin bMin =>
    exact keepsBounded_remove_liquidity pid l aMin bMin auth auth
  | swapExactTokensForTokens path aIn aOutMin =>
    exact keepsBounded_swap_exact path aIn aOutMin auth auth
  | swapTokensForExactTokens path aOut aInMax =>
    exact keepsBounded_swap_forexact path aOut aInMax auth auth
  | setFee pid v => exact keepsBounded_set_fee pid v auth
  | setProtocolFeePart pid v => exact keepsBounded_set_pfp pid v auth
  | addTransferPermission ad acct =>
    exact keepsBounded_of_preservesDex (preservesDex_add_perm ad acct)
  | transferAsset ad f t v =>
    exact keepsBounded_of_preservesDex (preservesDex_transfer_from ad f t v auth)

/-- C8: amended invariant.  The basis-point bounds `fee ≤ 10000` and
`protocol_fee_part ≤ 10000` on every stored pool are preserved by every
instruction whose creation payloads are themselves bounded (`InstrOk`): pool
data written back by add/remove-liquidity and swaps keeps the stored fee
fields, the setters validate against `MAX_BASIS_POINTS`, and the remaining
instructions leave the registry's fee fields untouched.  The restriction to
well-formed creation payloads is necessary: the raw `CreateLiquiditySource`
instruction stores its payload unvalidated (see the counterexample). -/
theorem pool_fee_bounds_invariant {w₀ w : World} (h₀ : w₀.poolsBounded)
    (h : ReachableOk w₀ w) : w.poolsBounded := by
  induction h with
  | refl => exact h₀
  | step i authority hi hprev ih => exact exec_keepsBounded i authority hi _ ih

/-- C8 counterexample: the raw `CreateLiquiditySource` instruction inserts
its `XYKPoolData` payload exactly as given, so a single instruction by the
DEX manager installs a pool with `fee = 10001 > MAX_BASIS_POINTS` into a
reachable state, refuting the claim that every reachable state keeps
`fee ≤ 10000`. -/
theorem pool_fee_bounds_counterexample :
    Reachable pairOnlyWorld
      (execW (.createLiquiditySource ⟨0, 1⟩ .xykPool (.xykPool badPoolData)) 10 pairOnlyWorld)
    ∧ ¬ (execW (.createLiquiditySource ⟨0, 1⟩ .xykPool (.xykPool badPoolData)) 10
        pairOnlyWorld).poolsBounded :=
  ⟨Reachable.step _ 10 (Reachable.refl _), by decide⟩

/-- C8 witness: the invariant applied to a one-step `ReachableOk` run — an
out-of-range `SetFee` on the canonical pool world is rejected and the world
stays bounded. -/
theorem pool_fee_bounds_invariant_witness :
    (swapWorld 1 1 1 1).poolsBounded
    ∧ (execW (.setFee ⟨0, 1⟩ 10001) 10 (swapWorld 1 1 1 1)).poolsBounded :=
  ⟨by decide,
    pool_fee_bounds_invariant (by decide)
      (ReachableOk.step (.setFee ⟨0, 1⟩ 10001) 10 True.intro
        (ReachableOk.refl (swapWorld 1 1 1 1)))⟩

end IrohaDex
